import Mathlib

/-!
Verification development for the `bayes_streaks` event pipeline.

The Python sources under `app/` are shallowly embedded below:
timestamps are epoch seconds as `Int` (the code obtains them via
`datetime.fromisoformat(...).timestamp()` and only compares, subtracts and
formats them), Python dicts and the Redis keyspace are association lists with
insert-or-overwrite-in-place semantics, and code paths that raise
(`ValueError` from the key helpers, `TypeError` from `fromisoformat`/`float`
on `None`, `DataError` from the Redis client encoding a `None` amount) return
an explicit error value next to the store state already mutated before the
raise, matching the fact that Redis writes issued before an exception persist.
-/

namespace BayesStreaks

/-! ## Association lists with Python-dict / Redis-hash update semantics -/

def alookup {α β : Type} [DecidableEq α] : List (α × β) → α → Option β
  | [], _ => none
  | (k, v) :: rest, a => if k = a then some v else alookup rest a

/-- Insert-or-overwrite in place (Python `d[k] = v`, Redis `HSET` of a whole
record): an existing binding is replaced at its position, a new one appended. -/
def aset {α β : Type} [DecidableEq α] (a : α) (b : β) : List (α × β) → List (α × β)
  | [] => [(a, b)]
  | (k, v) :: rest => if k = a then (a, b) :: rest else (k, v) :: aset a b rest

/-- Update a binding through `f`, creating it from the default `d` when absent
(Redis `HINCRBY`/`ZADD`/single-field `HSET` on a possibly missing key). -/
def aupd {α β : Type} [DecidableEq α] (a : α) (d : β) (f : β → β) : List (α × β) → List (α × β)
  | [] => [(a, f d)]
  | (k, v) :: rest => if k = a then (k, f v) :: rest else (k, v) :: aupd a d f rest

/-! ## UTC timestamp rendering (`datetime.fromtimestamp(ts, UTC).strftime("%Y-%m-%d %H:%M:%S")`) -/

def pad2 (n : Nat) : String :=
  if n < 10 then "0" ++ toString n else toString n

def pad4 (n : Nat) : String :=
  if n < 10 then "000" ++ toString n
  else if n < 100 then "00" ++ toString n
  else if n < 1000 then "0" ++ toString n
  else toString n

/-- Civil date from days since the Unix epoch (proleptic Gregorian calendar,
the mapping `datetime.fromtimestamp(·, UTC)` uses). Returns (year, month, day). -/
def civilFromDays (z0 : Int) : Int × Nat × Nat :=
  let z := z0 + 719468
  let era : Int := z.fdiv 146097
  let doe : Nat := (z - era * 146097).toNat
  let yoe : Nat := (doe - doe / 1460 + doe / 36524 - doe / 146096) / 365
  let doy : Nat := doe - (365 * yoe + yoe / 4 - yoe / 100)
  let mp : Nat := (5 * doy + 2) / 153
  let d : Nat := doy - (153 * mp + 2) / 5 + 1
  let m : Nat := if mp < 10 then mp + 3 else mp - 9
  let y : Int := (yoe : Int) + era * 400 + (if m ≤ 2 then 1 else 0)
  (y, m, d)

/-- `%Y-%m-%d %H:%M:%S` in UTC of an epoch-seconds timestamp. -/
def formatUTC (ts : Int) : String :=
  let days := ts.fdiv 86400
  let secs := (ts - days * 86400).toNat
  let c := civilFromDays days
  pad4 c.1.toNat ++ "-" ++ pad2 c.2.1 ++ "-" ++ pad2 c.2.2 ++ " " ++
    pad2 (secs / 3600) ++ ":" ++ pad2 (secs % 3600 / 60) ++ ":" ++ pad2 (secs % 60)

/-! ## `calculate_kill_streaks` (app/game_state/utils.py) -/

/-- The label emitted for a closed run: the `streak_length >= 2` guard and the
`== 2 / == 3 / == 4 / == 5` chain of `calculate_kill_streaks`. -/
def streakLabel (streak_length : Nat) (formatted_timestamp : String) : List String :=
  if streak_length == 2 then ["Double Kill at " ++ formatted_timestamp]
  else if streak_length == 3 then ["Triple Kill at " ++ formatted_timestamp]
  else if streak_length == 4 then ["Quadra Kill at " ++ formatted_timestamp]
  else if streak_length == 5 then ["Penta Kill at " ++ formatted_timestamp]
  else []

/-- The fused form of the two nested `while` loops of `calculate_kill_streaks`:
`last` is `current_streak[-1]`, `count` is `len(current_streak)`; the inner
loop's condition `kill_timestamps[j] - current_streak[-1] <= streak_window and
len(current_streak) < 5` either extends the run or closes it (emitting its
label at the run's last timestamp) and restarts at the next kill, which is
exactly `i = j` in the outer loop. -/
def streaksGo (streak_window : Int) (last : Int) (count : Nat) : List Int → List String
  | [] => streakLabel count (formatUTC last)
  | t :: rest =>
    if t - last ≤ streak_window ∧ count < 5 then
      streaksGo streak_window t (count + 1) rest
    else
      streakLabel count (formatUTC last) ++ streaksGo streak_window t 1 rest

def calculate_kill_streaks (kill_timestamps : List Int) (streak_window : Int) : List String :=
  match kill_timestamps with
  | [] => []
  | t :: rest => streaksGo streak_window t 1 rest

/-- The outer-loop restart `i = j`: nothing when the kills are exhausted,
otherwise a fresh run at the next kill. `calculate_kill_streaks` is this
function applied to the whole list. -/
def streaksRestart (streak_window : Int) : List Int → List String
  | [] => []
  | u :: r => streaksGo streak_window u 1 r

/-- Length of the maximal chain through `l` starting from `prev` in which each
successive timestamp is within `streak_window` of the previous one. -/
def chainCount (streak_window : Int) : Int → List Int → Nat
  | _, [] => 0
  | prev, t :: rest =>
    if t - prev ≤ streak_window then 1 + chainCount streak_window t rest else 0

/-- Modelled from the spec: "greedily form maximal runs in which each
successive timestamp is within W of the previous kill in the run (not the
first), cap each run at length 5". Each run is the run head plus its maximal
chain, capped at four further kills; the next run starts at the next kill. -/
def specRuns (streak_window : Int) : List Int → List (List Int)
  | [] => []
  | t :: rest =>
    (t :: rest.take (min 4 (chainCount streak_window t rest))) ::
      specRuns streak_window (rest.drop (min 4 (chainCount streak_window t rest)))
termination_by l => l.length
decreasing_by simp [List.length_drop]; omega

/-- Modelled from the spec: the label for a run of length 2–5, none otherwise. -/
def runLabelText (n : Nat) : Option String :=
  if n = 2 then some "Double Kill"
  else if n = 3 then some "Triple Kill"
  else if n = 4 then some "Quadra Kill"
  else if n = 5 then some "Penta Kill"
  else none

/-- Modelled from the spec: "emit a label for runs of length 2–5 ... formatted
`<Label> at YYYY-MM-DD HH:MM:SS` in UTC using the run's last timestamp". -/
def killStreaksSpec (streak_window : Int) (kill_timestamps : List Int) : List String :=
  (specRuns streak_window kill_timestamps).filterMap fun r =>
    (runLabelText r.length).map fun lab => lab ++ " at " ++ formatUTC (r.getLastD 0)

/-! ## `calculate_max_killing_spree` (app/game_state/utils.py) -/

structure KillRecord where
  timestamp : Int
  kill_type : String
deriving DecidableEq

/-- The inner `while death_index < num_deaths and kill >= death_history[death_index]`
loop: the remaining deaths stand in for the pointer, the streak is recorded to
the running max and reset on each advance. -/
def advanceDeaths (kill : Int) : List Int → Nat → Nat → List Int × Nat × Nat
  | [], streak, max_streak => ([], streak, max_streak)
  | d :: ds, streak, max_streak =>
    if d ≤ kill then advanceDeaths kill ds 0 (max max_streak streak)
    else (d :: ds, streak, max_streak)

/-- One iteration of the `for kill in human_kills` loop: advance the death
pointer, then increment the streak only `if death_index < num_deaths`. -/
def spreeStep (st : List Int × Nat × Nat) (kill : Int) : List Int × Nat × Nat :=
  match advanceDeaths kill st.1 st.2.1 st.2.2 with
  | ([], streak, max_streak) => ([], streak, max_streak)
  | (d :: ds, streak, max_streak) => (d :: ds, streak + 1, max_streak)

def calculate_max_killing_spree (kill_history : List KillRecord) (death_history : List Int) : Nat :=
  let human_kills := (kill_history.filter fun k => k.kill_type = "human").map (·.timestamp)
  let r := human_kills.foldl spreeStep (death_history, 0, 0)
  max r.2.2 r.2.1

def max_killing_spree_label (max_killing_spree : Nat) : Option String :=
  let m := if max_killing_spree > 7 then 7 else max_killing_spree
  if m = 3 then some "Killing Spree"
  else if m = 4 then some "Rampage"
  else if m = 5 then some "Unstoppable"
  else if m = 6 then some "Dominating"
  else if m = 7 then some "Godlike"
  else none

/-! ## Event model (app/game_event/models.py, app/game_event/enum.py) -/

inductive EventType
  | MATCH_START
  | MINION_KILL
  | PLAYER_KILL
  | DRAGON_KILL
  | TURRET_DESTROY
  | MATCH_END
  | UNKNOWN
deriving DecidableEq

/-- `GameEvent.validate_type`: `EVENT_TYPE(value)`, degrading to `UNKNOWN` on
`ValueError`. -/
def validate_type (value : String) : EventType :=
  if value = "MATCH_START" then .MATCH_START
  else if value = "MINION_KILL" then .MINION_KILL
  else if value = "PLAYER_KILL" then .PLAYER_KILL
  else if value = "DRAGON_KILL" then .DRAGON_KILL
  else if value = "TURRET_DESTROY" then .TURRET_DESTROY
  else if value = "MATCH_END" then .MATCH_END
  else .UNKNOWN

/-- The `type` tag of the inbound envelope: absent defaults to `UNKNOWN`
(the field default on `GameEvent.type_`), present goes through
`validate_type`. -/
def parseEventType : Option String → EventType
  | none => .UNKNOWN
  | some v => validate_type v

structure MatchPlayer where
  player_id : String
  gold : Int
  alive : Bool
  name : String
deriving DecidableEq

structure MatchTeam where
  team_id : String
  players : List MatchPlayer
deriving DecidableEq

structure GameMetadata where
  start_time : String
  title : String
  series_current : Int
  series_max : Int
  series_type : String
deriving DecidableEq

structure MatchStartPayload where
  fixture : GameMetadata
  teams : List MatchTeam
deriving DecidableEq

structure MinionKillPayload where
  player_id : String
  gold_granted : Option Int
deriving DecidableEq

structure PlayerKillPayload where
  killer_id : Option String
  victim_id : Option String
  gold_granted : Option Int
  assistants : Option (List String)
  assist_gold : Option Int
deriving DecidableEq

structure DragonKillPayload where
  killer_id : String
  dragon_type : Option String
  gold_granted : Option Int
deriving DecidableEq

structure TurretDestroyPayload where
  killer_id : Option String
  killer_team_id : Option String
  turret_tier : Option Int
  turret_lane : Option String
  player_gold_granted : Option Int
  team_gold_granted : Option Int
deriving DecidableEq

structure MatchEndPayload where
  winning_team_id : String
deriving DecidableEq

/-- The resolved polymorphic payload (`GameEvent.resolve_payload`); an
`UNKNOWN` event resolves its payload to `None`. -/
inductive Payload
  | matchStart (p : MatchStartPayload)
  | minionKill (p : MinionKillPayload)
  | playerKill (p : PlayerKillPayload)
  | dragonKill (p : DragonKillPayload)
  | turretDestroy (p : TurretDestroyPayload)
  | matchEnd (p : MatchEndPayload)
  | unknown
deriving DecidableEq

/-- A parsed `GameEvent`. The `timestamp` is the epoch-seconds value of the
ISO-8601 string (`datetime.fromisoformat(event.timestamp).timestamp()`);
`none` models an absent timestamp. -/
structure GameEvent where
  match_id : Option String
  type_ : EventType
  payload : Payload
  timestamp : Option Int
deriving DecidableEq

/-! ## Aggregate state (Redis hashes and sorted sets, app/game_state/services.py §docstring) -/

/-- The `first_blood` field: the `-1` written at match start is compared as
the string `"-1"` by `PlayerKillProcessor`, any later write is the numeric
timestamp, so the sentinel and timestamp values never collide. -/
inductive FirstBlood
  | sentinel
  | value (t : Int)
deriving DecidableEq

structure MatchHash where
  match_id : String
  start_time : String
  title : String
  series_current : Int
  series_max : Int
  series_type : String
  teams : List (String × List String)
  first_blood : Option FirstBlood
  winning_team_id : Option String
deriving DecidableEq

structure TeamHash where
  dragon_kills : Int
  tower_kills : Int
deriving DecidableEq

structure PlayerHash where
  player_id : String
  gold : Int
  alive : Int
  name : String
  minion_kills : Int
  human_kills : Int
  human_kills_assists : Int
  team_members : List String
  kill_streaks : Option (List String)
  max_killing_spree : Option Nat
deriving DecidableEq

/-- `PlayerRegistry`: `_matches : player_id ↦ (match_id, team_id)` and
`_teams : team_id ↦ match_id`. -/
structure Registry where
  _matches : List (String × String × String)
  _teams : List (String × String)
deriving DecidableEq

def register_player (r : Registry) (player_id match_id team_id : String) : Registry :=
  { _matches := aset player_id (match_id, team_id) r._matches,
    _teams := aset team_id match_id r._teams }

/-- `cls._matches.get(player_id, {}).get("match_id")`; the argument is an
`Option` because callers pass possibly-`None` identifiers. -/
def get_match_id_for_player (r : Registry) (player_id : Option String) : Option String :=
  player_id.bind fun pid => (alookup r._matches pid).map (·.1)

def get_match_id_for_team (r : Registry) (team_id : Option String) : Option String :=
  team_id.bind fun tid => alookup r._teams tid

def get_team_id (r : Registry) (player_id : Option String) : Option String :=
  player_id.bind fun pid => (alookup r._matches pid).map (·.2)

def players_for_team (r : Registry) (team_id : Option String) : List String :=
  match team_id with
  | none => []
  | some tid => (r._matches.filter fun kv => kv.2.2 = tid).map (·.1)

def players_for_match (r : Registry) (match_id : String) : List String :=
  (r._matches.filter fun kv => kv.2.1 = match_id).map (·.1)

/-- `cls._matches.pop(player_id, None)`: removes `player_id`'s binding. -/
def unregister_player (r : Registry) (player_id : String) : Registry :=
  { r with _matches := r._matches.filter fun kv => kv.1 ≠ player_id }

def unregister_team (r : Registry) (team_id : String) : Registry :=
  { r with _teams := r._teams.filter fun kv => kv.1 ≠ team_id }

/-- The store keyed as in §6.4: match hashes by match id, team/player hashes
and histories by (match id, team/player id). Kill histories hold the
`{timestamp, kill_type}` members ordered by their timestamp score, death
histories the timestamps. -/
structure Store where
  matchHashes : List (String × MatchHash)
  teamHashes : List ((String × String) × TeamHash)
  playerHashes : List ((String × String) × PlayerHash)
  killHistories : List ((String × String) × List KillRecord)
  deathHistories : List ((String × String) × List Int)
deriving DecidableEq

structure AppState where
  store : Store
  registry : Registry
deriving DecidableEq

/-- The exceptions the processors can raise: `ValueError` from the key
helpers when a registry lookup fails, `TypeError` from
`fromisoformat(None)` / `float(None)`, `DataError` from the Redis client
encoding a `None` increment or mapping value. -/
inductive PyErr
  | valueError
  | typeError
  | dataError
deriving DecidableEq

/-- `f"...game:{match_id}"` renders a `None` match id as the literal string
`"None"`. -/
def matchKeyOf : Option String → String
  | some m => m
  | none => "None"

/-- `HINCRBY` on an absent key creates the hash as if all counters were 0;
the non-counter fields of this default are never observed by the claims. -/
def defaultTeamHash : TeamHash := ⟨0, 0⟩

def defaultPlayerHash : PlayerHash :=
  ⟨"", 0, 0, "", 0, 0, 0, [], none, none⟩

def emptyMatchHash : MatchHash :=
  ⟨"", "", "", 0, 0, "", [], none, none⟩

def hincrPlayer (s : Store) (key : String × String) (f : PlayerHash → PlayerHash) : Store :=
  { s with playerHashes := aupd key defaultPlayerHash f s.playerHashes }

def hincrTeam (s : Store) (key : String × String) (f : TeamHash → TeamHash) : Store :=
  { s with teamHashes := aupd key defaultTeamHash f s.teamHashes }

/-- `ZADD` of the `{timestamp, kill_type}` member scored by its timestamp:
re-adding an existing member is a no-op (the score equals the member's own
timestamp), otherwise the member is inserted in score order. -/
def zaddKill (ts : Int) (kt : String) : List KillRecord → List KillRecord
  | [] => [⟨ts, kt⟩]
  | r :: rest =>
    if r.timestamp = ts ∧ r.kill_type = kt then r :: rest
    else if ts < r.timestamp then ⟨ts, kt⟩ :: r :: rest
    else r :: zaddKill ts kt rest

def zaddDeath (ts : Int) : List Int → List Int
  | [] => [ts]
  | d :: rest =>
    if d = ts then d :: rest
    else if ts < d then ts :: d :: rest
    else d :: zaddDeath ts rest

def add_kill_history (s : Store) (key : String × String) (ts : Int) (kt : String) : Store :=
  { s with killHistories := aupd key [] (zaddKill ts kt) s.killHistories }

/-- `settings.kill_streak_time_window` (default 10 seconds). -/
def kill_streak_time_window : Int := 10

/-! ## Processors (app/game_state/processors.py)

Each processor maps the state to the state after its Redis writes, paired
with `some e` when the Python raises `e` (the writes issued before the raise
are kept, as they are in Redis). -/

/-- The match-metadata `HSET` of `MatchStartProcessor`: every §3.3 field
except `winning_team_id`, with `first_blood = -1`; fields not in the mapping
(a pre-existing `winning_team_id`) are left as they were. -/
def matchStartWriteMatch (mid : String) (p : MatchStartPayload) (s : Store) : Store :=
  let old := alookup s.matchHashes mid
  let mh : MatchHash :=
    { match_id := mid
      start_time := p.fixture.start_time
      title := p.fixture.title
      series_current := p.fixture.series_current
      series_max := p.fixture.series_max
      series_type := p.fixture.series_type
      teams := p.teams.map fun t => (t.team_id, t.players.map (·.player_id))
      first_blood := some .sentinel
      winning_team_id := old.bind (·.winning_team_id) }
  { s with matchHashes := aset mid mh s.matchHashes }

/-- First loop of `MatchStartProcessor`: per-team `HSET` of zeroed counters. -/
def matchStartWriteTeams (mid : String) : List MatchTeam → Store → Store
  | [], s => s
  | t :: rest, s =>
    matchStartWriteTeams mid rest
      { s with teamHashes := aset (mid, t.team_id) defaultTeamHash s.teamHashes }

/-- The per-player `HSET` mapping: listed fields are overwritten, fields not
in the mapping (`kill_streaks`, `max_killing_spree`) keep any prior value. -/
def playerHashInit (pl : MatchPlayer) (members : List String) (old : Option PlayerHash) :
    PlayerHash :=
  { player_id := pl.player_id
    gold := pl.gold
    alive := if pl.alive then 1 else 0
    name := pl.name
    minion_kills := 0
    human_kills := 0
    human_kills_assists := 0
    team_members := members
    kill_streaks := old.bind (·.kill_streaks)
    max_killing_spree := old.bind (·.max_killing_spree) }

/-- One iteration of the player loop of `MatchStartProcessor`: register the
player, then write their state hash (whose key resolves through the
registration just made). `team_members` is the team's players minus the
player. -/
def matchStartWritePlayer (mid : String) (t : MatchTeam) (pl : MatchPlayer) (st : AppState) :
    AppState :=
  let members := (t.players.filter fun q => q.player_id ≠ pl.player_id).map (·.player_id)
  let ph := playerHashInit pl members (alookup st.store.playerHashes (mid, pl.player_id))
  let phs := aset (mid, pl.player_id) ph st.store.playerHashes
  { registry := register_player st.registry pl.player_id mid t.team_id,
    store := { st.store with playerHashes := phs } }

def registerPlayersLoop (mid : String) (t : MatchTeam) : List MatchPlayer → AppState → AppState
  | [], st => st
  | pl :: rest, st => registerPlayersLoop mid t rest (matchStartWritePlayer mid t pl st)

/-- Second loop of `MatchStartProcessor` for one team. -/
def registerTeamPlayers (mid : String) (t : MatchTeam) (st : AppState) : AppState :=
  registerPlayersLoop mid t t.players st

/-- The `for team in payload.teams` outer loop of the player registration. -/
def registerTeamsLoop (mid : String) : List MatchTeam → AppState → AppState
  | [], st => st
  | t :: rest, st => registerTeamsLoop mid rest (registerTeamPlayers mid t st)

/-- The flattened player ids of a MATCH_START payload, team by team. -/
def allPlayerIds : List MatchTeam → List String
  | [] => []
  | t :: rest => t.players.map (·.player_id) ++ allPlayerIds rest

/-- `MatchStartProcessor.process_event`. A `None` `matchID` makes the
metadata mapping contain a `None` value, which the Redis client rejects with
`DataError` before anything is written. -/
def matchStartProcess (ev : GameEvent) (p : MatchStartPayload) (st : AppState) :
    AppState × Option PyErr :=
  match ev.match_id with
  | none => (st, some .dataError)
  | some mid =>
    let s1 := matchStartWriteMatch mid p st.store
    let s2 := matchStartWriteTeams mid p.teams s1
    (registerTeamsLoop mid p.teams { st with store := s2 }, none)

/-- `MinionKillProcessor.process_event`: skips everything when `goldGranted`
is absent; increments gold and minion kills, then parses `event.timestamp`
— which raises `TypeError` when absent, after those increments. -/
def minionKillProcess (ev : GameEvent) (p : MinionKillPayload) (st : AppState) :
    AppState × Option PyErr :=
  match p.gold_granted with
  | none => (st, none)
  | some g =>
    match get_match_id_for_player st.registry (some p.player_id) with
    | none => (st, some .valueError)
    | some mid =>
      let key := (mid, p.player_id)
      let s1 := hincrPlayer st.store key fun h => { h with gold := h.gold + g }
      let s2 := hincrPlayer s1 key fun h => { h with minion_kills := h.minion_kills + 1 }
      match ev.timestamp with
      | none => ({ st with store := s2 }, some .typeError)
      | some ts => ({ st with store := add_kill_history s2 key ts "minion" }, none)

/-- Python `killer_id or payload.victim_id`: `or` falls through on `None`
and on the empty (falsy) string. -/
def pyOr (a b : Option String) : Option String :=
  match a with
  | some x => if x = "" then b else some x
  | none => b

/-- The `if killer_id is not None` block of `PlayerKillProcessor`: gold (when
granted), human kills, and the kill-history entry (when the timestamp is
present). The registry is the process-wide `PlayerRegistry`. -/
def playerKillKillerStep (reg : Registry) (ev : GameEvent) (p : PlayerKillPayload)
    (s : Store) : Store × Option PyErr :=
  match p.killer_id with
  | none => (s, none)
  | some k =>
    match get_match_id_for_player reg (some k) with
    | none => (s, some .valueError)
    | some mid =>
      let s0 := match p.gold_granted with
        | none => s
        | some g => hincrPlayer s (mid, k) fun h => { h with gold := h.gold + g }
      let s1 := hincrPlayer s0 (mid, k) fun h => { h with human_kills := h.human_kills + 1 }
      let s2 := match ev.timestamp with
        | none => s1
        | some ts => add_kill_history s1 (mid, k) ts "human"
      (s2, none)

/-- The `for assistant_id in payload.assistants` loop: each assistant's gold
is incremented by `assist_gold` with no absence guard, so a `None`
`assistGold` raises `DataError` at the first assistant. -/
def playerKillAssistLoop (reg : Registry) (assistant_ids : List String)
    (assist_gold : Option Int) (s : Store) : Store × Option PyErr :=
  match assistant_ids with
  | [] => (s, none)
  | aId :: rest =>
    match get_match_id_for_player reg (some aId) with
    | none => (s, some .valueError)
    | some mid =>
      match assist_gold with
      | none => (s, some .dataError)
      | some g =>
        playerKillAssistLoop reg rest assist_gold
          (hincrPlayer (hincrPlayer s (mid, aId) fun h => { h with gold := h.gold + g })
            (mid, aId) fun h => { h with human_kills_assists := h.human_kills_assists + 1 })

/-- The victim block of `PlayerKillProcessor`: appends the timestamp to the
victim's death history when both victim and timestamp are present. -/
def playerKillVictimStep (reg : Registry) (ev : GameEvent) (p : PlayerKillPayload)
    (s : Store) : Store × Option PyErr :=
  match p.victim_id, ev.timestamp with
  | some v, some ts =>
    match get_match_id_for_player reg (some v) with
    | none => (s, some .valueError)
    | some mid =>
      ({ s with deathHistories := aupd (mid, v) [] (zaddDeath ts) s.deathHistories }, none)
  | _, _ => (s, none)

/-- `HSET` of the single `first_blood` field; the key always exists on the
reachable branches (its `first_blood` was just read as non-`None`). -/
def setFirstBlood (s : Store) (mid : String) (ts : Int) : Store :=
  let d := { emptyMatchHash with first_blood := some (.value ts) }
  let mhs := aupd mid d (fun mh => { mh with first_blood := some (.value ts) }) s.matchHashes
  { s with matchHashes := mhs }

/-- The first-blood block of `PlayerKillProcessor`: skipped without a
timestamp; returns when neither killer nor victim is present; otherwise the
match is resolved through the registry from `killer_id or victim_id`, the
stored `first_blood` is read and set when it is the `"-1"` sentinel or when
the timestamp is strictly smaller; a missing hash or field makes
`float(None)` raise `TypeError`. -/
def playerKillFirstBlood (reg : Registry) (ev : GameEvent) (p : PlayerKillPayload)
    (s : Store) : Store × Option PyErr :=
  match ev.timestamp with
  | none => (s, none)
  | some ts =>
    if p.killer_id = none ∧ p.victim_id = none then (s, none)
    else
      match (alookup s.matchHashes
          (matchKeyOf (get_match_id_for_player reg (pyOr p.killer_id p.victim_id)))).bind
          (·.first_blood) with
      | none => (s, some .typeError)
      | some .sentinel =>
        (setFirstBlood s
          (matchKeyOf (get_match_id_for_player reg (pyOr p.killer_id p.victim_id))) ts, none)
      | some (.value v) =>
        if ts < v then
          (setFirstBlood s
            (matchKeyOf (get_match_id_for_player reg (pyOr p.killer_id p.victim_id))) ts, none)
        else (s, none)

/-- `PlayerKillProcessor.process_event`: the four blocks in source order,
aborting at the first raise. -/
def playerKillProcess (ev : GameEvent) (p : PlayerKillPayload) (st : AppState) :
    AppState × Option PyErr :=
  match playerKillKillerStep st.registry ev p st.store with
  | (s1, some e) => ({ st with store := s1 }, some e)
  | (s1, none) =>
    match (match p.assistants with
           | none => (s1, none)
           | some l => playerKillAssistLoop st.registry l p.assist_gold s1) with
    | (s2, some e) => ({ st with store := s2 }, some e)
    | (s2, none) =>
      match playerKillVictimStep st.registry ev p s2 with
      | (s3, some e) => ({ st with store := s3 }, some e)
      | (s3, none) =>
        match playerKillFirstBlood st.registry ev p s3 with
        | (s4, e) => ({ st with store := s4 }, e)

/-- `DragonKillProcessor.process_event`: no-op when `goldGranted` is absent
(`killerID` is required by the payload model, so its `None` check never
fires); increments the killer's gold, appends the dragon kill to the history
when the timestamp is present, and increments the killer's team's dragon
kills through the registry. -/
def dragonKillProcess (ev : GameEvent) (p : DragonKillPayload) (st : AppState) :
    AppState × Option PyErr :=
  match p.gold_granted with
  | none => (st, none)
  | some g =>
    match get_match_id_for_player st.registry (some p.killer_id) with
    | none => (st, some .valueError)
    | some mid =>
      let s1 := hincrPlayer st.store (mid, p.killer_id) fun h => { h with gold := h.gold + g }
      let s2 := match ev.timestamp with
        | none => s1
        | some ts => add_kill_history s1 (mid, p.killer_id) ts "dragon"
      match get_team_id st.registry (some p.killer_id) with
      | none => ({ st with store := s2 }, some .valueError)
      | some tid =>
        match get_match_id_for_team st.registry (some tid) with
        | none => ({ st with store := s2 }, some .valueError)
        | some tmid =>
          ({ st with store :=
              hincrTeam s2 (tmid, tid) fun h => { h with dragon_kills := h.dragon_kills + 1 } },
            none)

/-- The per-teammate gold loop of `TurretDestroyProcessor`: the killer gets
`playerGoldGranted`, everyone else `teamGoldGranted`, each skipped when the
applicable value is absent. -/
def turretGoldLoop (reg : Registry) (killer : String) (pgg tgg : Option Int) :
    List String → Store → Store × Option PyErr
  | [], s => (s, none)
  | pid :: rest, s =>
    match (if pid = killer then pgg else tgg) with
    | none => turretGoldLoop reg killer pgg tgg rest s
    | some g =>
      match get_match_id_for_player reg (some pid) with
      | none => (s, some .valueError)
      | some mid =>
        turretGoldLoop reg killer pgg tgg rest
          (hincrPlayer s (mid, pid) fun h => { h with gold := h.gold + g })

/-- `TurretDestroyProcessor.process_event`: no-op without `killerID`;
resolves the team key from `killerTeamID` (raising `ValueError` when absent
or unregistered), increments `tower_kills`, then runs the gold loop over the
registry's players of that team. -/
def turretDestroyProcess (ev : GameEvent) (p : TurretDestroyPayload) (st : AppState) :
    AppState × Option PyErr :=
  match p.killer_id with
  | none => (st, none)
  | some killer =>
    match p.killer_team_id with
    | none => (st, some .valueError)
    | some tid =>
      match get_match_id_for_team st.registry (some tid) with
      | none => (st, some .valueError)
      | some tmid =>
        match turretGoldLoop st.registry killer p.player_gold_granted p.team_gold_granted
            (players_for_team st.registry (some tid))
            (hincrTeam st.store (tmid, tid) fun h =>
              { h with tower_kills := h.tower_kills + 1 }) with
        | (s2, e) => ({ st with store := s2 }, e)

/-- `MatchEndProcessor.calculate_kill_streaks`: per player, read the kill
history in score order, compute the streak labels with the configured window
and write them to the `kill_streaks` field. -/
def killStreaksLoop (reg : Registry) : List String → Store → Store × Option PyErr
  | [], s => (s, none)
  | pid :: rest, s =>
    match get_match_id_for_player reg (some pid) with
    | none => (s, some .valueError)
    | some mid =>
      let kill_timestamps := ((alookup s.killHistories (mid, pid)).getD []).map (·.timestamp)
      let ks := calculate_kill_streaks kill_timestamps kill_streak_time_window
      let phs := aupd (mid, pid) defaultPlayerHash
        (fun h => { h with kill_streaks := some ks }) s.playerHashes
      killStreaksLoop reg rest { s with playerHashes := phs }

/-- `MatchEndProcessor.calculate_max_killing_sprees`: per player, compute the
spree from kill and death histories and write `max_killing_spree`. -/
def killingSpreesLoop (reg : Registry) : List String → Store → Store × Option PyErr
  | [], s => (s, none)
  | pid :: rest, s =>
    match get_match_id_for_player reg (some pid) with
    | none => (s, some .valueError)
    | some mid =>
      let kh := (alookup s.killHistories (mid, pid)).getD []
      let dh := (alookup s.deathHistories (mid, pid)).getD []
      let m := calculate_max_killing_spree kh dh
      let phs := aupd (mid, pid) defaultPlayerHash
        (fun h => { h with max_killing_spree := some m }) s.playerHashes
      killingSpreesLoop reg rest { s with playerHashes := phs }

/-- The single-field `HSET` of `winning_team_id` on the match hash (a missing
hash is created holding just that field). -/
def matchEndWriteWinning (mid : String) (winning_team_id : String) (s : Store) : Store :=
  let d := { emptyMatchHash with winning_team_id := some winning_team_id }
  let mhs := aupd mid d (fun mh => { mh with winning_team_id := some winning_team_id })
    s.matchHashes
  { s with matchHashes := mhs }

/-- `MatchEndProcessor.process_event`: set `winning_team_id` on the match
hash, then run the two end-of-match derivations over the match's registered
players. -/
def matchEndProcess (ev : GameEvent) (p : MatchEndPayload) (st : AppState) :
    AppState × Option PyErr :=
  let mid := matchKeyOf ev.match_id
  let s1 := matchEndWriteWinning mid p.winning_team_id st.store
  let pids := players_for_match st.registry mid
  match killStreaksLoop st.registry pids s1 with
  | (s2, some e) => ({ st with store := s2 }, some e)
  | (s2, none) =>
    match killingSpreesLoop st.registry pids s2 with
    | (s3, e) => ({ st with store := s3 }, e)

/-- The dispatch of `process_game_event` (app/game_state/services.py): one
processor per recognized type, nothing for `UNKNOWN`. A payload that does not
match the selected processor's expectations cannot arise from parsing and is
mapped to a `TypeError`. -/
def process_game_event (ev : GameEvent) (st : AppState) : AppState × Option PyErr :=
  match ev.type_ with
  | .MATCH_START =>
    match ev.payload with
    | .matchStart p => matchStartProcess ev p st
    | _ => (st, some .typeError)
  | .MINION_KILL =>
    match ev.payload with
    | .minionKill p => minionKillProcess ev p st
    | _ => (st, some .typeError)
  | .PLAYER_KILL =>
    match ev.payload with
    | .playerKill p => playerKillProcess ev p st
    | _ => (st, some .typeError)
  | .DRAGON_KILL =>
    match ev.payload with
    | .dragonKill p => dragonKillProcess ev p st
    | _ => (st, some .typeError)
  | .TURRET_DESTROY =>
    match ev.payload with
    | .turretDestroy p => turretDestroyProcess ev p st
    | _ => (st, some .typeError)
  | .MATCH_END =>
    match ev.payload with
    | .matchEnd p => matchEndProcess ev p st
    | _ => (st, some .typeError)
  | .UNKNOWN => (st, none)

/-- Sequential processing of a list of events, as the single state-update
consumer does (each event's Redis effects persist whether or not it raised). -/
def processSeq (evs : List GameEvent) (st : AppState) : AppState :=
  evs.foldl (fun s ev => (process_game_event ev s).1) st

/-! ## Predicates used by the claims -/

/-- The `first_blood` field stored for match `mid`, if any. -/
def fbOf (s : Store) (mid : String) : Option FirstBlood :=
  (alookup s.matchHashes mid).bind (·.first_blood)

/-- The monotone-min update rule the first-blood block implements. -/
def fbStep (fb : FirstBlood) (ts : Int) : FirstBlood :=
  match fb with
  | .sentinel => .value ts
  | .value v => if ts < v then .value ts else .value v

/-- The timestamp a `PLAYER_KILL` event contributes to first blood: present
exactly when the event carries a timestamp and at least one of killer and
victim (the processor returns before the first-blood update otherwise). -/
def qualTs (ev : GameEvent) : Option Int :=
  match ev.type_, ev.payload, ev.timestamp with
  | .PLAYER_KILL, .playerKill p, some ts =>
    if p.killer_id = none ∧ p.victim_id = none then none else some ts
  | _, _, _ => none

def seqQualTs (evs : List GameEvent) : List Int := evs.filterMap qualTs

/-- The first-blood value after one event contributing `q` to the streak of
qualifying timestamps. -/
def fbAfter (f : FirstBlood) (q : Option Int) : FirstBlood :=
  match q with
  | none => f
  | some ts => fbStep f ts

/-- The participants of a `PLAYER_KILL` resolve in the registry, the match it
resolves to is `mid`, and `assistGold` accompanies any `assistants` list —
i.e. the event reaches its first-blood block without raising. -/
def pkSafe (reg : Registry) (mid : String) (p : PlayerKillPayload) (tso : Option Int) : Prop :=
  (∀ k, p.killer_id = some k → get_match_id_for_player reg (some k) ≠ none) ∧
  (∀ l, p.assistants = some l →
    p.assist_gold ≠ none ∧ ∀ a ∈ l, get_match_id_for_player reg (some a) ≠ none) ∧
  (∀ v, p.victim_id = some v → tso ≠ none → get_match_id_for_player reg (some v) ≠ none) ∧
  (tso ≠ none → ¬(p.killer_id = none ∧ p.victim_id = none) →
    get_match_id_for_player reg (pyOr p.killer_id p.victim_id) = some mid)

/-- A mid-game event for match `mid`: not a match start, and any
`PLAYER_KILL` has its participants registered to `mid` (the claim's "prior
MATCH_START registering the involved players"). -/
def evSafe (reg : Registry) (mid : String) (ev : GameEvent) : Prop :=
  ev.type_ ≠ .MATCH_START ∧
  (∀ p, ev.type_ = .PLAYER_KILL → ev.payload = .playerKill p → pkSafe reg mid p ev.timestamp)

/-- Counter monotonicity between two stores: every player hash still exists
with gold and kill counters at least as large, every team hash with dragon
and tower counters at least as large. -/
def Evolves (s s' : Store) : Prop :=
  (∀ k ph, alookup s.playerHashes k = some ph → ∃ ph',
    alookup s'.playerHashes k = some ph' ∧
    ph.gold ≤ ph'.gold ∧ ph.minion_kills ≤ ph'.minion_kills ∧
    ph.human_kills ≤ ph'.human_kills ∧ ph.human_kills_assists ≤ ph'.human_kills_assists) ∧
  (∀ k th, alookup s.teamHashes k = some th → ∃ th',
    alookup s'.teamHashes k = some th' ∧
    th.dragon_kills ≤ th'.dragon_kills ∧ th.tower_kills ≤ th'.tower_kills)

/-- The `alive` field of every existing player hash is untouched. -/
def KeepsAlive (s s' : Store) : Prop :=
  ∀ k ph, alookup s.playerHashes k = some ph → ∃ ph',
    alookup s'.playerHashes k = some ph' ∧ ph'.alive = ph.alive

/-- All gold amounts carried by the payload are non-negative. -/
def payloadGoldNonneg : Payload → Prop
  | .minionKill p => 0 ≤ p.gold_granted.getD 0
  | .playerKill p => 0 ≤ p.gold_granted.getD 0 ∧ 0 ≤ p.assist_gold.getD 0
  | .dragonKill p => 0 ≤ p.gold_granted.getD 0
  | .turretDestroy p => 0 ≤ p.player_gold_granted.getD 0 ∧ 0 ≤ p.team_gold_granted.getD 0
  | _ => True

/-! ## Concrete sample data for counterexamples and witnesses -/

def sampleFixture : GameMetadata := ⟨"2024-01-01T12:00:00+00:00", "Final", 1, 3, "BO3"⟩

def samplePlayer1 : MatchPlayer := ⟨"p1", 100, true, "Alice"⟩

def samplePlayer2 : MatchPlayer := ⟨"p2", 100, false, "Bob"⟩

def sampleTeam : MatchTeam := ⟨"t1", [samplePlayer1, samplePlayer2]⟩

def sampleMatchStart : GameEvent :=
  ⟨some "m1", .MATCH_START, .matchStart ⟨sampleFixture, [sampleTeam]⟩, some 0⟩

def initState : AppState := ⟨⟨[], [], [], [], []⟩, ⟨[], []⟩⟩

/-- The state after processing `sampleMatchStart` from the empty state. -/
def startedState : AppState := (process_game_event sampleMatchStart initState).1

def sampleMinion : GameEvent :=
  ⟨none, .MINION_KILL, .minionKill ⟨"p1", some 20⟩, some 1⟩

def sampleMinionNoTs : GameEvent :=
  ⟨none, .MINION_KILL, .minionKill ⟨"p1", some 20⟩, none⟩

def sampleMinionNegGold : GameEvent :=
  ⟨none, .MINION_KILL, .minionKill ⟨"p1", some (-5)⟩, some 1⟩

def samplePkAssistNoGold : GameEvent :=
  ⟨none, .PLAYER_KILL, .playerKill ⟨none, none, none, some ["p2"], none⟩, some 5⟩

def samplePkKill5 : GameEvent :=
  ⟨none, .PLAYER_KILL, .playerKill ⟨some "p1", some "p2", some 300, none, none⟩, some 5⟩

def samplePkBare : GameEvent :=
  ⟨none, .PLAYER_KILL, .playerKill ⟨some "p1", none, none, none, none⟩, none⟩

def samplePkNobody3 : GameEvent :=
  ⟨none, .PLAYER_KILL, .playerKill ⟨none, none, none, none, none⟩, some 3⟩

def sampleEmptyTeamStart : GameEvent :=
  ⟨some "m2", .MATCH_START, .matchStart ⟨sampleFixture, [⟨"tE", []⟩]⟩, some 0⟩

def sampleStartNoMid : GameEvent :=
  ⟨none, .MATCH_START, .matchStart ⟨sampleFixture, [sampleTeam]⟩, some 0⟩

def sampleTurretBare : GameEvent :=
  ⟨none, .TURRET_DESTROY, .turretDestroy ⟨some "p1", some "t1", none, none, none, none⟩, some 7⟩

/-! ## Association-list lemmas -/

theorem alookup_aset_self {α β : Type} [DecidableEq α] (a : α) (b : β) (l : List (α × β)) :
    alookup (aset a b l) a = some b := by
  induction l with
  | nil => simp [aset, alookup]
  | cons kv rest ih =>
    obtain ⟨k, v⟩ := kv
    by_cases h : k = a
    · simp [aset, h, alookup]
    · simp [aset, h, alookup, ih]

theorem alookup_aset_ne {α β : Type} [DecidableEq α] (a c : α) (b : β) (l : List (α × β))
    (h : c ≠ a) : alookup (aset a b l) c = alookup l c := by
  induction l with
  | nil => simp [aset, alookup, Ne.symm h]
  | cons kv rest ih =>
    obtain ⟨k, v⟩ := kv
    by_cases hk : k = a
    · subst hk; simp [aset, alookup, Ne.symm h]
    · simp [aset, hk, alookup, ih]

theorem alookup_aupd_self {α β : Type} [DecidableEq α] (a : α) (d : β) (f : β → β)
    (l : List (α × β)) : alookup (aupd a d f l) a = some (f ((alookup l a).getD d)) := by
  induction l with
  | nil => simp [aupd, alookup]
  | cons kv rest ih =>
    obtain ⟨k, v⟩ := kv
    by_cases h : k = a
    · subst h; simp [aupd, alookup]
    · simp [aupd, h, alookup, ih]

theorem alookup_aupd_ne {α β : Type} [DecidableEq α] (a c : α) (d : β) (f : β → β)
    (l : List (α × β)) (h : c ≠ a) : alookup (aupd a d f l) c = alookup l c := by
  induction l with
  | nil => simp [aupd, alookup, Ne.symm h]
  | cons kv rest ih =>
    obtain ⟨k, v⟩ := kv
    by_cases hk : k = a
    · subst hk; simp [aupd, alookup, Ne.symm h]
    · simp [aupd, hk, alookup, ih]

/-! ## Kill-streak lemmas and claim C1 -/

theorem streakLabel_eq (n : Nat) (s : String) :
    streakLabel n s =
      (match runLabelText n with
       | some lab => [lab ++ " at " ++ s]
       | none => []) := by
  match n with
  | 0 => rfl
  | 1 => rfl
  | 2 => rfl
  | 3 => rfl
  | 4 => rfl
  | 5 => rfl
  | n + 6 => rfl

theorem chainCount_le_length (W : Int) (prev : Int) (l : List Int) :
    chainCount W prev l ≤ l.length := by
  induction l generalizing prev with
  | nil => simp [chainCount]
  | cons t rest ih =>
    rw [chainCount]
    by_cases h : t - prev ≤ W
    · rw [if_pos h]
      have := ih t
      simp only [List.length_cons]
      omega
    · rw [if_neg h]
      simp

theorem streaksGo_five (W : Int) (t : Int) (l : List Int) :
    streaksGo W t 5 l = streakLabel 5 (formatUTC t) ++ streaksRestart W l := by
  cases l with
  | nil => simp [streaksGo, streaksRestart]
  | cons u r =>
    have hn : ¬(u - t ≤ W ∧ 5 < 5) := by omega
    have e : streaksGo W t 5 (u :: r) =
        if u - t ≤ W ∧ 5 < 5 then streaksGo W u (5 + 1) r
        else streakLabel 5 (formatUTC t) ++ streaksGo W u 1 r := rfl
    rw [e, if_neg hn]
    rfl

theorem streaksGo_eq (W : Int) :
    ∀ (l : List Int) (last : Int) (count : Nat), count < 5 →
      streaksGo W last count l =
        streakLabel (count + min (5 - count) (chainCount W last l))
          (formatUTC ((l.take (min (5 - count) (chainCount W last l))).getLastD last)) ++
        streaksRestart W (l.drop (min (5 - count) (chainCount W last l)))
  | [], last, count, h => by simp [streaksGo, chainCount, streaksRestart]
  | t :: rest, last, count, h => by
    by_cases h1 : t - last ≤ W
    · have hcc : chainCount W last (t :: rest) = 1 + chainCount W t rest := by
        simp [chainCount, h1]
      have h5 : 5 - count = (4 - count) + 1 := by omega
      have hmin : min (5 - count) (chainCount W last (t :: rest)) =
          min (4 - count) (chainCount W t rest) + 1 := by
        rw [hcc, h5, Nat.add_comm 1 (chainCount W t rest)]
        exact Nat.succ_min_succ _ _
      have hgo : streaksGo W last count (t :: rest) = streaksGo W t (count + 1) rest := by
        have e : streaksGo W last count (t :: rest) =
            if t - last ≤ W ∧ count < 5 then streaksGo W t (count + 1) rest
            else streakLabel count (formatUTC last) ++ streaksGo W t 1 rest := rfl
        rw [e, if_pos ⟨h1, h⟩]
      rw [hgo, hmin]
      have htake : (t :: rest).take (min (4 - count) (chainCount W t rest) + 1) =
          t :: rest.take (min (4 - count) (chainCount W t rest)) := rfl
      have hdrop : (t :: rest).drop (min (4 - count) (chainCount W t rest) + 1) =
          rest.drop (min (4 - count) (chainCount W t rest)) := rfl
      rw [htake, hdrop, List.getLastD_cons]
      by_cases h4 : count + 1 < 5
      · have ih := streaksGo_eq W rest t (count + 1) h4
        have h45 : 5 - (count + 1) = 4 - count := by omega
        rw [h45] at ih
        rw [ih]
        have hadd : count + 1 + min (4 - count) (chainCount W t rest) =
            count + (min (4 - count) (chainCount W t rest) + 1) := by omega
        rw [hadd]
      · have hc4 : count = 4 := by omega
        subst hc4
        have hm0 : min (4 - 4) (chainCount W t rest) = 0 := by simp
        rw [hm0]
        simp only [List.take_zero, List.drop_zero]
        have hlast : ([] : List Int).getLastD t = t := rfl
        rw [hlast]
        exact streaksGo_five W t rest
    · have hcc : chainCount W last (t :: rest) = 0 := by
        rw [chainCount, if_neg h1]
      have hn : ¬(t - last ≤ W ∧ count < 5) := fun hc => h1 hc.1
      rw [hcc]
      simp only [Nat.min_zero, Nat.add_zero, List.take_zero, List.drop_zero]
      have hlast : ([] : List Int).getLastD last = last := rfl
      rw [hlast]
      have e : streaksGo W last count (t :: rest) =
          if t - last ≤ W ∧ count < 5 then streaksGo W t (count + 1) rest
          else streakLabel count (formatUTC last) ++ streaksGo W t 1 rest := rfl
      rw [e, if_neg hn]
      rfl

theorem calc_eq_restart (W : Int) (l : List Int) :
    calculate_kill_streaks l W = streaksRestart W l := by
  cases l <;> rfl

theorem calc_eq_spec (W : Int) : ∀ l : List Int,
    calculate_kill_streaks l W = killStreaksSpec W l
  | [] => by simp [calculate_kill_streaks, killStreaksSpec, specRuns]
  | t :: rest => by
    have hm : min 4 (chainCount W t rest) ≤ rest.length :=
      le_trans (Nat.min_le_right _ _) (chainCount_le_length W t rest)
    have ih := calc_eq_spec W (rest.drop (min 4 (chainCount W t rest)))
    have hgo := streaksGo_eq W rest t 1 (by omega)
    have h51 : (5 : Nat) - 1 = 4 := rfl
    rw [h51] at hgo
    have hlhs : calculate_kill_streaks (t :: rest) W = streaksGo W t 1 rest := rfl
    rw [hlhs, hgo]
    have hspec : specRuns W (t :: rest) =
        (t :: rest.take (min 4 (chainCount W t rest))) ::
          specRuns W (rest.drop (min 4 (chainCount W t rest))) := by
      rw [specRuns]
    rw [killStreaksSpec, hspec, List.filterMap_cons]
    have hlen : (t :: rest.take (min 4 (chainCount W t rest))).length =
        min 4 (chainCount W t rest) + 1 := by
      simp [List.length_take, Nat.min_eq_left hm]
    have hlast2 : (t :: rest.take (min 4 (chainCount W t rest))).getLastD 0 =
        (rest.take (min 4 (chainCount W t rest))).getLastD t := List.getLastD_cons _ _ _
    rw [streakLabel_eq]
    rw [← calc_eq_restart, ih, ← killStreaksSpec]
    rw [hlen, hlast2]
    have hone : 1 + min 4 (chainCount W t rest) = min 4 (chainCount W t rest) + 1 := by omega
    rw [hone]
    cases hr : runLabelText (min 4 (chainCount W t rest) + 1) with
    | none => simp [hr]
    | some lab => simp [hr]
termination_by l => l.length
decreasing_by simp [List.length_drop]; omega

/-- Claim C1: for every chronologically-sorted list of kill timestamps and
window W, `calculate_kill_streaks` equals the spec's greedy segmentation
(maximal runs with successive gaps within W of the previous kill, capped at
length 5, one label `Double/Triple/Quadra/Penta Kill at <UTC time of the
run's last kill>` per run of length 2–5, nothing for runs of length 1); it
returns `[]` on `[]` and on singletons, renders the label timestamps as
`YYYY-MM-DD HH:MM:SS` in UTC, and a run of 6 qualifying kills emits a Penta
Kill for the first five and restarts at the sixth. -/
theorem C1_kill_streak_segmentation (W : Int) (L : List Int)
    (t t0 t1 t2 t3 t4 t5 : Int) :
    calculate_kill_streaks L W = killStreaksSpec W L ∧
    calculate_kill_streaks [] W = [] ∧
    calculate_kill_streaks [t] W = [] ∧
    calculate_kill_streaks [1, 2, 3, 4, 5] 2 = ["Penta Kill at 1970-01-01 00:00:05"] ∧
    calculate_kill_streaks [1640995200, 1640995201, 1640995202] 2 =
      ["Triple Kill at 2022-01-01 00:00:02"] ∧
    (t1 - t0 ≤ W → t2 - t1 ≤ W → t3 - t2 ≤ W → t4 - t3 ≤ W → t5 - t4 ≤ W →
      calculate_kill_streaks [t0, t1, t2, t3, t4, t5] W =
        ["Penta Kill at " ++ formatUTC t4]) := by
  refine ⟨calc_eq_spec W L, rfl, rfl, by decide, by decide, ?_⟩
  intro h01 h12 h23 h34 h45
  have e0 : calculate_kill_streaks [t0, t1, t2, t3, t4, t5] W =
      streaksGo W t0 1 [t1, t2, t3, t4, t5] := rfl
  have e1 : streaksGo W t0 1 [t1, t2, t3, t4, t5] =
      if t1 - t0 ≤ W ∧ 1 < 5 then streaksGo W t1 (1 + 1) [t2, t3, t4, t5]
      else streakLabel 1 (formatUTC t0) ++ streaksGo W t1 1 [t2, t3, t4, t5] := rfl
  have e2 : streaksGo W t1 2 [t2, t3, t4, t5] =
      if t2 - t1 ≤ W ∧ 2 < 5 then streaksGo W t2 (2 + 1) [t3, t4, t5]
      else streakLabel 2 (formatUTC t1) ++ streaksGo W t2 1 [t3, t4, t5] := rfl
  have e3 : streaksGo W t2 3 [t3, t4, t5] =
      if t3 - t2 ≤ W ∧ 3 < 5 then streaksGo W t3 (3 + 1) [t4, t5]
      else streakLabel 3 (formatUTC t2) ++ streaksGo W t3 1 [t4, t5] := rfl
  have e4 : streaksGo W t3 4 [t4, t5] =
      if t4 - t3 ≤ W ∧ 4 < 5 then streaksGo W t4 (4 + 1) [t5]
      else streakLabel 4 (formatUTC t3) ++ streaksGo W t4 1 [t5] := rfl
  have e5 : streaksGo W t4 5 [t5] =
      if t5 - t4 ≤ W ∧ 5 < 5 then streaksGo W t5 (5 + 1) []
      else streakLabel 5 (formatUTC t4) ++ streaksGo W t5 1 [] := rfl
  rw [e0, e1, if_pos ⟨h01, by omega⟩, e2, if_pos ⟨h12, by omega⟩, e3, if_pos ⟨h23, by omega⟩,
    e4, if_pos ⟨h34, by omega⟩, e5, if_neg (by omega : ¬(t5 - t4 ≤ W ∧ 5 < 5))]
  rfl

theorem C1_kill_streak_segmentation_witness :
    calculate_kill_streaks [10, 11, 13, 14, 16, 17] 3 = ["Penta Kill at " ++ formatUTC 16] :=
  (C1_kill_streak_segmentation 3 [] 0 10 11 13 14 16 17).2.2.2.2.2
    (by decide) (by decide) (by decide) (by decide) (by decide)

/-! ## Killing-spree lemmas and claim C2 -/

theorem spreeStep_nil (s m : Nat) (kill : Int) :
    spreeStep ([], s, m) kill = ([], s, m) := rfl

theorem foldl_spreeStep_nil (ks : List Int) (s m : Nat) :
    ks.foldl spreeStep ([], s, m) = ([], s, m) := by
  induction ks with
  | nil => rfl
  | cons k rest ih => rw [List.foldl_cons, spreeStep_nil, ih]

/-- Claim C2: `calculate_max_killing_spree` walks the chronological
human-typed kills against the death pointer, resetting and recording on each
passed death, incrementing only while deaths remain, and finally taking the
max of the recorded value and the final streak; with no deaths the result is
0 (kills after the final death never count), only `"human"`-typed history
entries contribute, and the three spec examples hold. -/
theorem C2_max_killing_spree (kh : List KillRecord) (D : List Int) :
    calculate_max_killing_spree kh [] = 0 ∧
    calculate_max_killing_spree kh D =
      calculate_max_killing_spree (kh.filter fun k => k.kill_type = "human") D ∧
    calculate_max_killing_spree [⟨1, "human"⟩, ⟨2, "human"⟩, ⟨3, "human"⟩] [4] = 3 ∧
    calculate_max_killing_spree [⟨1, "human"⟩, ⟨2, "human"⟩, ⟨3, "human"⟩] [] = 0 ∧
    calculate_max_killing_spree [⟨1, "human"⟩, ⟨2, "human"⟩, ⟨5, "human"⟩] [3] = 2 := by
  refine ⟨?_, ?_, by decide, by decide, by decide⟩
  · rw [calculate_max_killing_spree, foldl_spreeStep_nil]
    rfl
  · rw [calculate_max_killing_spree, calculate_max_killing_spree, List.filter_filter]
    simp [Bool.and_self]

/-! ## Registry lemmas and claim C10 -/

theorem alookup_filter_key_self (p : String) (l : List (String × String × String)) :
    alookup (l.filter fun kv => kv.1 ≠ p) p = none := by
  induction l with
  | nil => rfl
  | cons kv rest ih =>
    obtain ⟨k, v⟩ := kv
    rw [List.filter_cons]
    by_cases h : k = p
    · rw [if_neg (by simp [h])]
      exact ih
    · rw [if_pos (by simp [h]), alookup, if_neg h]
      exact ih

theorem alookup_filter_key_other (p q : String) (l : List (String × String × String))
    (h : q ≠ p) : alookup (l.filter fun kv => kv.1 ≠ p) q = alookup l q := by
  induction l with
  | nil => rfl
  | cons kv rest ih =>
    obtain ⟨k, v⟩ := kv
    rw [List.filter_cons]
    by_cases hk : k = p
    · rw [if_neg (by simp [hk])]
      have hkq : ¬k = q := by rw [hk]; exact Ne.symm h
      rw [alookup, if_neg hkq]
      exact ih
    · rw [if_pos (by simp [hk]), alookup, alookup]
      by_cases hq : k = q
      · rw [if_pos hq, if_pos hq]
      · rw [if_neg hq, if_neg hq]
        exact ih

theorem filter_key_map_fst (P : String × String × String → Bool) (p : String)
    (l : List (String × String × String)) :
    ((l.filter fun kv => kv.1 ≠ p).filter P).map (·.1) =
      ((l.filter P).map (·.1)).filter fun q => q ≠ p := by
  induction l with
  | nil => rfl
  | cons kv rest ih =>
    rw [List.filter_cons, List.filter_cons]
    by_cases h1 : kv.1 = p
    · rw [if_neg (by simp [h1])]
      by_cases h2 : P kv
      · rw [if_pos h2, List.map_cons, List.filter_cons, if_neg (by simp [h1])]
        exact ih
      · rw [if_neg h2]
        exact ih
    · rw [if_pos (by simp [h1])]
      by_cases h2 : P kv
      · rw [if_pos h2, List.filter_cons, if_pos h2, List.map_cons, List.map_cons,
          List.filter_cons, if_pos (by simp [h1])]
        rw [ih]
      · rw [if_neg h2, List.filter_cons, if_neg h2]
        exact ih

/-- Claim C10: after `register_player p m t`, the three registry lookups for
`p` and `t` answer `m` and `t`; lookups for an unregistered or unregistered-
again player return `none` rather than raising; `unregister_player p` leaves
every other player's entry unchanged, and the match/team listings afterwards
are the same lists minus `p`. -/
theorem C10_player_registry (r : Registry) (p q m t : String) :
    (get_match_id_for_player (register_player r p m t) (some p) = some m ∧
      get_team_id (register_player r p m t) (some p) = some t ∧
      get_match_id_for_team (register_player r p m t) (some t) = some m) ∧
    (alookup r._matches p = none →
      get_match_id_for_player r (some p) = none ∧ get_team_id r (some p) = none) ∧
    (get_match_id_for_player (unregister_player r p) (some p) = none ∧
      get_team_id (unregister_player r p) (some p) = none) ∧
    (q ≠ p → alookup (unregister_player r p)._matches q = alookup r._matches q) ∧
    players_for_match (unregister_player r p) m = (players_for_match r m).filter (· ≠ p) ∧
    players_for_team (unregister_player r p) (some t) =
      (players_for_team r (some t)).filter (· ≠ p) := by
  refine ⟨⟨?_, ?_, ?_⟩, ?_, ⟨?_, ?_⟩, ?_, ?_, ?_⟩
  · simp [get_match_id_for_player, register_player, alookup_aset_self]
  · simp [get_team_id, register_player, alookup_aset_self]
  · simp [get_match_id_for_team, register_player, alookup_aset_self]
  · intro h
    simp [get_match_id_for_player, get_team_id, h]
  · show ((alookup (r._matches.filter fun kv => kv.1 ≠ p) p).map fun x => x.1) = none
    rw [alookup_filter_key_self]
    rfl
  · show ((alookup (r._matches.filter fun kv => kv.1 ≠ p) p).map fun x => x.2) = none
    rw [alookup_filter_key_self]
    rfl
  · intro h
    show alookup (r._matches.filter fun kv => kv.1 ≠ p) q = alookup r._matches q
    exact alookup_filter_key_other p q r._matches h
  · exact filter_key_map_fst _ p r._matches
  · exact filter_key_map_fst _ p r._matches

theorem C10_player_registry_witness :
    get_match_id_for_player (register_player ⟨[], []⟩ "p9" "m9" "t9") (some "p9") = some "m9" ∧
    alookup (unregister_player startedState.registry "p1")._matches "p2" =
      alookup startedState.registry._matches "p2" :=
  ⟨(C10_player_registry ⟨[], []⟩ "p9" "q9" "m9" "t9").1.1,
    (C10_player_registry startedState.registry "p1" "p2" "m9" "t9").2.2.2.1 (by decide)⟩

/-! ## Store-evolution infrastructure -/

theorem evolves_refl (s : Store) : Evolves s s :=
  ⟨fun _ ph h => ⟨ph, h, le_refl _, le_refl _, le_refl _, le_refl _⟩,
   fun _ th h => ⟨th, h, le_refl _, le_refl _⟩⟩

theorem evolves_trans {a b c : Store} (h1 : Evolves a b) (h2 : Evolves b c) : Evolves a c := by
  constructor
  · intro k ph h
    obtain ⟨ph1, hl1, g1, m1, k1, a1⟩ := h1.1 k ph h
    obtain ⟨ph2, hl2, g2, m2, k2, a2⟩ := h2.1 k ph1 hl1
    exact ⟨ph2, hl2, le_trans g1 g2, le_trans m1 m2, le_trans k1 k2, le_trans a1 a2⟩
  · intro k th h
    obtain ⟨th1, hl1, d1, t1⟩ := h1.2 k th h
    obtain ⟨th2, hl2, d2, t2⟩ := h2.2 k th1 hl1
    exact ⟨th2, hl2, le_trans d1 d2, le_trans t1 t2⟩

theorem evolves_of_parts {s s' : Store} (hp : s'.playerHashes = s.playerHashes)
    (ht : s'.teamHashes = s.teamHashes) : Evolves s s' := by
  constructor
  · intro k ph h
    exact ⟨ph, by rw [hp]; exact h, le_refl _, le_refl _, le_refl _, le_refl _⟩
  · intro k th h
    exact ⟨th, by rw [ht]; exact h, le_refl _, le_refl _⟩

theorem evolves_playerAupd (s : Store) (key : String × String) (d : PlayerHash)
    (f : PlayerHash → PlayerHash)
    (hf : ∀ h, h.gold ≤ (f h).gold ∧ h.minion_kills ≤ (f h).minion_kills ∧
      h.human_kills ≤ (f h).human_kills ∧ h.human_kills_assists ≤ (f h).human_kills_assists) :
    Evolves s { s with playerHashes := aupd key d f s.playerHashes } := by
  constructor
  · intro k ph h
    by_cases hk : k = key
    · subst hk
      refine ⟨f ph, ?_, (hf ph).1, (hf ph).2.1, (hf ph).2.2.1, (hf ph).2.2.2⟩
      show alookup (aupd k d f s.playerHashes) k = some (f ph)
      rw [alookup_aupd_self, h]
      rfl
    · refine ⟨ph, ?_, le_refl _, le_refl _, le_refl _, le_refl _⟩
      show alookup (aupd key d f s.playerHashes) k = some ph
      rw [alookup_aupd_ne _ _ _ _ _ hk]
      exact h
  · intro k th h
    exact ⟨th, h, le_refl _, le_refl _⟩

theorem evolves_teamAupd (s : Store) (key : String × String) (d : TeamHash)
    (f : TeamHash → TeamHash)
    (hf : ∀ h, h.dragon_kills ≤ (f h).dragon_kills ∧ h.tower_kills ≤ (f h).tower_kills) :
    Evolves s { s with teamHashes := aupd key d f s.teamHashes } := by
  constructor
  · intro k ph h
    exact ⟨ph, h, le_refl _, le_refl _, le_refl _, le_refl _⟩
  · intro k th h
    by_cases hk : k = key
    · subst hk
      refine ⟨f th, ?_, (hf th).1, (hf th).2⟩
      show alookup (aupd k d f s.teamHashes) k = some (f th)
      rw [alookup_aupd_self, h]
      rfl
    · refine ⟨th, ?_, le_refl _, le_refl _⟩
      show alookup (aupd key d f s.teamHashes) k = some th
      rw [alookup_aupd_ne _ _ _ _ _ hk]
      exact h

theorem keepsAlive_refl (s : Store) : KeepsAlive s s := fun _ ph h => ⟨ph, h, rfl⟩

theorem keepsAlive_trans {a b c : Store} (h1 : KeepsAlive a b) (h2 : KeepsAlive b c) :
    KeepsAlive a c := by
  intro k ph h
  obtain ⟨ph1, hl1, e1⟩ := h1 k ph h
  obtain ⟨ph2, hl2, e2⟩ := h2 k ph1 hl1
  exact ⟨ph2, hl2, by rw [e2, e1]⟩

theorem keepsAlive_of_parts {s s' : Store} (hp : s'.playerHashes = s.playerHashes) :
    KeepsAlive s s' :=
  fun _ ph h => ⟨ph, by rw [hp]; exact h, rfl⟩

theorem keepsAlive_playerAupd (s : Store) (key : String × String) (d : PlayerHash)
    (f : PlayerHash → PlayerHash) (hf : ∀ h, (f h).alive = h.alive) :
    KeepsAlive s { s with playerHashes := aupd key d f s.playerHashes } := by
  intro k ph h
  by_cases hk : k = key
  · subst hk
    refine ⟨f ph, ?_, hf ph⟩
    show alookup (aupd k d f s.playerHashes) k = some (f ph)
    rw [alookup_aupd_self, h]
    rfl
  · refine ⟨ph, ?_, rfl⟩
    show alookup (aupd key d f s.playerHashes) k = some ph
    rw [alookup_aupd_ne _ _ _ _ _ hk]
    exact h

/-! ## Per-processor effect lemmas: registry and match-hash preservation,
`alive` frame -/

theorem minionKill_effects (ev : GameEvent) (p : MinionKillPayload) (st : AppState) :
    (minionKillProcess ev p st).1.registry = st.registry ∧
    (minionKillProcess ev p st).1.store.matchHashes = st.store.matchHashes ∧
    KeepsAlive st.store (minionKillProcess ev p st).1.store := by
  unfold minionKillProcess
  cases hgg : p.gold_granted with
  | none => exact ⟨rfl, rfl, keepsAlive_refl _⟩
  | some g =>
    cases hm : get_match_id_for_player st.registry (some p.player_id) with
    | none => exact ⟨rfl, rfl, keepsAlive_refl _⟩
    | some mid =>
      dsimp only
      have k1 := keepsAlive_playerAupd st.store (mid, p.player_id) defaultPlayerHash
        (fun h => { h with gold := h.gold + g }) (fun _ => rfl)
      have k2 := keepsAlive_playerAupd
        (hincrPlayer st.store (mid, p.player_id) fun h => { h with gold := h.gold + g })
        (mid, p.player_id) defaultPlayerHash
        (fun h => { h with minion_kills := h.minion_kills + 1 }) (fun _ => rfl)
      cases hts : ev.timestamp with
      | none => exact ⟨rfl, rfl, keepsAlive_trans k1 k2⟩
      | some ts =>
        exact ⟨rfl, rfl, keepsAlive_trans (keepsAlive_trans k1 k2) (keepsAlive_of_parts rfl)⟩

theorem killerStep_effects (reg : Registry) (ev : GameEvent) (p : PlayerKillPayload)
    (s : Store) :
    (playerKillKillerStep reg ev p s).1.matchHashes = s.matchHashes ∧
    KeepsAlive s (playerKillKillerStep reg ev p s).1 := by
  unfold playerKillKillerStep
  cases p.killer_id with
  | none => exact ⟨rfl, keepsAlive_refl _⟩
  | some k =>
    dsimp only
    cases hm : get_match_id_for_player reg (some k) with
    | none => exact ⟨rfl, keepsAlive_refl _⟩
    | some mid =>
      dsimp only
      cases hgg : p.gold_granted with
      | none =>
        have k1 := keepsAlive_playerAupd s (mid, k) defaultPlayerHash
          (fun h => { h with human_kills := h.human_kills + 1 }) (fun _ => rfl)
        cases hts : ev.timestamp with
        | none => exact ⟨rfl, k1⟩
        | some ts => exact ⟨rfl, keepsAlive_trans k1 (keepsAlive_of_parts rfl)⟩
      | some g =>
        have k0 := keepsAlive_playerAupd s (mid, k) defaultPlayerHash
          (fun h => { h with gold := h.gold + g }) (fun _ => rfl)
        have k1 := keepsAlive_playerAupd
          (hincrPlayer s (mid, k) fun h => { h with gold := h.gold + g })
          (mid, k) defaultPlayerHash
          (fun h => { h with human_kills := h.human_kills + 1 }) (fun _ => rfl)
        cases hts : ev.timestamp with
        | none => exact ⟨rfl, keepsAlive_trans k0 k1⟩
        | some ts =>
          exact ⟨rfl, keepsAlive_trans (keepsAlive_trans k0 k1) (keepsAlive_of_parts rfl)⟩

theorem assistLoop_effects (reg : Registry) (ag : Option Int) :
    ∀ (l : List String) (s : Store),
      (playerKillAssistLoop reg l ag s).1.matchHashes = s.matchHashes ∧
      KeepsAlive s (playerKillAssistLoop reg l ag s).1
  | [], s => ⟨rfl, keepsAlive_refl _⟩
  | aId :: rest, s => by
    unfold playerKillAssistLoop
    cases hm : get_match_id_for_player reg (some aId) with
    | none => exact ⟨rfl, keepsAlive_refl _⟩
    | some mid =>
      dsimp only
      cases hag : ag with
      | none => exact ⟨rfl, keepsAlive_refl _⟩
      | some g =>
        have k0 := keepsAlive_playerAupd s (mid, aId) defaultPlayerHash
          (fun h => { h with gold := h.gold + g }) (fun _ => rfl)
        have k1 := keepsAlive_playerAupd
          (hincrPlayer s (mid, aId) fun h => { h with gold := h.gold + g })
          (mid, aId) defaultPlayerHash
          (fun h => { h with human_kills_assists := h.human_kills_assists + 1 }) (fun _ => rfl)
        obtain ⟨r1, r2⟩ := assistLoop_effects reg (some g) rest
          (hincrPlayer (hincrPlayer s (mid, aId) fun h => { h with gold := h.gold + g })
            (mid, aId) fun h => { h with human_kills_assists := h.human_kills_assists + 1 })
        exact ⟨r1, keepsAlive_trans (keepsAlive_trans k0 k1) r2⟩

theorem victimStep_effects (reg : Registry) (ev : GameEvent) (p : PlayerKillPayload)
    (s : Store) :
    (playerKillVictimStep reg ev p s).1.playerHashes = s.playerHashes ∧
    (playerKillVictimStep reg ev p s).1.teamHashes = s.teamHashes ∧
    (playerKillVictimStep reg ev p s).1.matchHashes = s.matchHashes := by
  unfold playerKillVictimStep
  cases p.victim_id with
  | none => exact ⟨rfl, rfl, rfl⟩
  | some v =>
    cases ev.timestamp with
    | none => exact ⟨rfl, rfl, rfl⟩
    | some ts =>
      dsimp only
      cases get_match_id_for_player reg (some v) with
      | none => exact ⟨rfl, rfl, rfl⟩
      | some mid => exact ⟨rfl, rfl, rfl⟩

theorem firstBlood_effects (reg : Registry) (ev : GameEvent) (p : PlayerKillPayload)
    (s : Store) :
    (playerKillFirstBlood reg ev p s).1.playerHashes = s.playerHashes ∧
    (playerKillFirstBlood reg ev p s).1.teamHashes = s.teamHashes := by
  unfold playerKillFirstBlood
  cases ev.timestamp with
  | none => exact ⟨rfl, rfl⟩
  | some ts =>
    dsimp only
    by_cases hkv : p.killer_id = none ∧ p.victim_id = none
    · rw [if_pos hkv]
      exact ⟨rfl, rfl⟩
    · rw [if_neg hkv]
      cases (alookup s.matchHashes
          (matchKeyOf (get_match_id_for_player reg (pyOr p.killer_id p.victim_id)))).bind
          (fun mh => mh.first_blood) with
      | none => exact ⟨rfl, rfl⟩
      | some fb =>
        cases fb with
        | sentinel => exact ⟨rfl, rfl⟩
        | value v =>
          dsimp only
          by_cases hv : ts < v
          · rw [if_pos hv]
            exact ⟨rfl, rfl⟩
          · rw [if_neg hv]
            exact ⟨rfl, rfl⟩

theorem pkVictimFb_effects (reg : Registry) (ev : GameEvent) (p : PlayerKillPayload)
    (s2 : Store) :
    KeepsAlive s2
      (match playerKillVictimStep reg ev p s2 with
       | (s3, some e) => (s3, some e)
       | (s3, none) => playerKillFirstBlood reg ev p s3).1 := by
  rcases hv : playerKillVictimStep reg ev p s2 with ⟨s3, e3⟩
  have hvs := victimStep_effects reg ev p s2
  rw [hv] at hvs
  cases e3 with
  | some e => exact keepsAlive_of_parts hvs.1
  | none =>
    dsimp only
    have hfb := firstBlood_effects reg ev p s3
    exact keepsAlive_trans (keepsAlive_of_parts hvs.1) (keepsAlive_of_parts hfb.1)

theorem playerKill_effects (ev : GameEvent) (p : PlayerKillPayload) (st : AppState) :
    (playerKillProcess ev p st).1.registry = st.registry ∧
    KeepsAlive st.store (playerKillProcess ev p st).1.store := by
  unfold playerKillProcess
  rcases hk : playerKillKillerStep st.registry ev p st.store with ⟨s1, e1⟩
  have hks := killerStep_effects st.registry ev p st.store
  rw [hk] at hks
  obtain ⟨-, kk⟩ := hks
  cases e1 with
  | some e => exact ⟨rfl, kk⟩
  | none =>
    dsimp only
    cases hpa : p.assistants with
    | none =>
      dsimp only
      have ht := pkVictimFb_effects st.registry ev p s1
      rcases hv : playerKillVictimStep st.registry ev p s1 with ⟨s3, e3⟩
      rw [hv] at ht
      cases e3 with
      | some e => exact ⟨rfl, keepsAlive_trans kk ht⟩
      | none => exact ⟨rfl, keepsAlive_trans kk ht⟩
    | some l =>
      dsimp only
      rcases ha : playerKillAssistLoop st.registry l p.assist_gold s1 with ⟨s2, e2⟩
      have has := assistLoop_effects st.registry p.assist_gold l s1
      rw [ha] at has
      obtain ⟨-, ak⟩ := has
      cases e2 with
      | some e => exact ⟨rfl, keepsAlive_trans kk ak⟩
      | none =>
        dsimp only
        have ht := pkVictimFb_effects st.registry ev p s2
        rcases hv : playerKillVictimStep st.registry ev p s2 with ⟨s3, e3⟩
        rw [hv] at ht
        cases e3 with
        | some e => exact ⟨rfl, keepsAlive_trans (keepsAlive_trans kk ak) ht⟩
        | none => exact ⟨rfl, keepsAlive_trans (keepsAlive_trans kk ak) ht⟩

theorem dragonKill_effects (ev : GameEvent) (p : DragonKillPayload) (st : AppState) :
    (dragonKillProcess ev p st).1.registry = st.registry ∧
    (dragonKillProcess ev p st).1.store.matchHashes = st.store.matchHashes ∧
    KeepsAlive st.store (dragonKillProcess ev p st).1.store := by
  unfold dragonKillProcess
  cases hgg : p.gold_granted with
  | none => exact ⟨rfl, rfl, keepsAlive_refl _⟩
  | some g =>
    cases hm : get_match_id_for_player st.registry (some p.killer_id) with
    | none => exact ⟨rfl, rfl, keepsAlive_refl _⟩
    | some mid =>
      dsimp only
      have k0 := keepsAlive_playerAupd st.store (mid, p.killer_id) defaultPlayerHash
        (fun h => { h with gold := h.gold + g }) (fun _ => rfl)
      cases hts : ev.timestamp with
      | none =>
        cases hti : get_team_id st.registry (some p.killer_id) with
        | none => exact ⟨rfl, rfl, k0⟩
        | some tid =>
          dsimp only
          cases htm : get_match_id_for_team st.registry (some tid) with
          | none => exact ⟨rfl, rfl, k0⟩
          | some tmid => exact ⟨rfl, rfl, keepsAlive_trans k0 (keepsAlive_of_parts rfl)⟩
      | some ts =>
        have k1 : KeepsAlive (hincrPlayer st.store (mid, p.killer_id)
            fun h => { h with gold := h.gold + g })
            (add_kill_history (hincrPlayer st.store (mid, p.killer_id)
              fun h => { h with gold := h.gold + g }) (mid, p.killer_id) ts "dragon") :=
          keepsAlive_of_parts rfl
        cases hti : get_team_id st.registry (some p.killer_id) with
        | none => exact ⟨rfl, rfl, keepsAlive_trans k0 k1⟩
        | some tid =>
          dsimp only
          cases htm : get_match_id_for_team st.registry (some tid) with
          | none => exact ⟨rfl, rfl, keepsAlive_trans k0 k1⟩
          | some tmid =>
            exact ⟨rfl, rfl,
              keepsAlive_trans (keepsAlive_trans k0 k1) (keepsAlive_of_parts rfl)⟩

theorem turretLoop_effects (reg : Registry) (killer : String) (pgg tgg : Option Int) :
    ∀ (l : List String) (s : Store),
      (turretGoldLoop reg killer pgg tgg l s).1.matchHashes = s.matchHashes ∧
      (turretGoldLoop reg killer pgg tgg l s).1.teamHashes = s.teamHashes ∧
      KeepsAlive s (turretGoldLoop reg killer pgg tgg l s).1
  | [], s => ⟨rfl, rfl, keepsAlive_refl _⟩
  | pid :: rest, s => by
    unfold turretGoldLoop
    cases hg : (if pid = killer then pgg else tgg) with
    | none => exact turretLoop_effects reg killer pgg tgg rest s
    | some g =>
      cases hm : get_match_id_for_player reg (some pid) with
      | none => exact ⟨rfl, rfl, keepsAlive_refl _⟩
      | some mid =>
        dsimp only
        have k0 := keepsAlive_playerAupd s (mid, pid) defaultPlayerHash
          (fun h => { h with gold := h.gold + g }) (fun _ => rfl)
        obtain ⟨r1, r2, r3⟩ := turretLoop_effects reg killer pgg tgg rest
          (hincrPlayer s (mid, pid) fun h => { h with gold := h.gold + g })
        exact ⟨r1, r2, keepsAlive_trans k0 r3⟩

theorem turretDestroy_effects (ev : GameEvent) (p : TurretDestroyPayload) (st : AppState) :
    (turretDestroyProcess ev p st).1.registry = st.registry ∧
    (turretDestroyProcess ev p st).1.store.matchHashes = st.store.matchHashes ∧
    KeepsAlive st.store (turretDestroyProcess ev p st).1.store := by
  unfold turretDestroyProcess
  cases p.killer_id with
  | none => exact ⟨rfl, rfl, keepsAlive_refl _⟩
  | some killer =>
    dsimp only
    cases p.killer_team_id with
    | none => exact ⟨rfl, rfl, keepsAlive_refl _⟩
    | some tid =>
      dsimp only
      cases htm : get_match_id_for_team st.registry (some tid) with
      | none => exact ⟨rfl, rfl, keepsAlive_refl _⟩
      | some tmid =>
        dsimp only
        rcases hl : turretGoldLoop st.registry killer p.player_gold_granted
            p.team_gold_granted (players_for_team st.registry (some tid))
            (hincrTeam st.store (tmid, tid) fun h =>
              { h with tower_kills := h.tower_kills + 1 }) with ⟨s2, e2⟩
        have hle := turretLoop_effects st.registry killer p.player_gold_granted
          p.team_gold_granted (players_for_team st.registry (some tid))
          (hincrTeam st.store (tmid, tid) fun h =>
            { h with tower_kills := h.tower_kills + 1 })
        rw [hl] at hle
        exact ⟨rfl, hle.1, keepsAlive_trans (keepsAlive_of_parts rfl) hle.2.2⟩

theorem killStreaksLoop_effects (reg : Registry) :
    ∀ (l : List String) (s : Store),
      (killStreaksLoop reg l s).1.matchHashes = s.matchHashes ∧
      (killStreaksLoop reg l s).1.teamHashes = s.teamHashes ∧
      KeepsAlive s (killStreaksLoop reg l s).1
  | [], s => ⟨rfl, rfl, keepsAlive_refl _⟩
  | pid :: rest, s => by
    unfold killStreaksLoop
    dsimp only
    cases hm : get_match_id_for_player reg (some pid) with
    | none => exact ⟨rfl, rfl, keepsAlive_refl _⟩
    | some mid =>
      dsimp only
      have k0 := keepsAlive_playerAupd s (mid, pid) defaultPlayerHash
        (fun h => { h with kill_streaks := some (calculate_kill_streaks
          (((alookup s.killHistories (mid, pid)).getD []).map (·.timestamp))
          kill_streak_time_window) }) (fun _ => rfl)
      obtain ⟨r1, r2, r3⟩ := killStreaksLoop_effects reg rest
        (Store.mk s.matchHashes s.teamHashes
          (aupd (mid, pid) defaultPlayerHash
            (fun h => { h with kill_streaks := some (calculate_kill_streaks
              (((alookup s.killHistories (mid, pid)).getD []).map (·.timestamp))
              kill_streak_time_window) }) s.playerHashes)
          s.killHistories s.deathHistories)
      exact ⟨r1, r2, keepsAlive_trans k0 r3⟩

theorem killingSpreesLoop_effects (reg : Registry) :
    ∀ (l : List String) (s : Store),
      (killingSpreesLoop reg l s).1.matchHashes = s.matchHashes ∧
      (killingSpreesLoop reg l s).1.teamHashes = s.teamHashes ∧
      KeepsAlive s (killingSpreesLoop reg l s).1
  | [], s => ⟨rfl, rfl, keepsAlive_refl _⟩
  | pid :: rest, s => by
    unfold killingSpreesLoop
    dsimp only
    cases hm : get_match_id_for_player reg (some pid) with
    | none => exact ⟨rfl, rfl, keepsAlive_refl _⟩
    | some mid =>
      dsimp only
      have k0 := keepsAlive_playerAupd s (mid, pid) defaultPlayerHash
        (fun h => { h with max_killing_spree := some (calculate_max_killing_spree
          ((alookup s.killHistories (mid, pid)).getD [])
          ((alookup s.deathHistories (mid, pid)).getD [])) }) (fun _ => rfl)
      obtain ⟨r1, r2, r3⟩ := killingSpreesLoop_effects reg rest
        (Store.mk s.matchHashes s.teamHashes
          (aupd (mid, pid) defaultPlayerHash
            (fun h => { h with max_killing_spree := some (calculate_max_killing_spree
              ((alookup s.killHistories (mid, pid)).getD [])
              ((alookup s.deathHistories (mid, pid)).getD [])) }) s.playerHashes)
          s.killHistories s.deathHistories)
      exact ⟨r1, r2, keepsAlive_trans k0 r3⟩

theorem matchEnd_effects (ev : GameEvent) (p : MatchEndPayload) (st : AppState) :
    (matchEndProcess ev p st).1.registry = st.registry ∧
    KeepsAlive st.store (matchEndProcess ev p st).1.store := by
  unfold matchEndProcess
  dsimp only
  rcases hs2 : killStreaksLoop st.registry
      (players_for_match st.registry (matchKeyOf ev.match_id))
      (matchEndWriteWinning (matchKeyOf ev.match_id) p.winning_team_id st.store) with ⟨s2, e2⟩
  have h2 := killStreaksLoop_effects st.registry
    (players_for_match st.registry (matchKeyOf ev.match_id))
    (matchEndWriteWinning (matchKeyOf ev.match_id) p.winning_team_id st.store)
  rw [hs2] at h2
  have kwin : KeepsAlive st.store
      (matchEndWriteWinning (matchKeyOf ev.match_id) p.winning_team_id st.store) :=
    keepsAlive_of_parts rfl
  cases e2 with
  | some e => exact ⟨rfl, keepsAlive_trans kwin h2.2.2⟩
  | none =>
    dsimp only
    rcases hs3 : killingSpreesLoop st.registry
        (players_for_match st.registry (matchKeyOf ev.match_id)) s2 with ⟨s3, e3⟩
    have h3 := killingSpreesLoop_effects st.registry
      (players_for_match st.registry (matchKeyOf ev.match_id)) s2
    rw [hs3] at h3
    exact ⟨rfl, keepsAlive_trans (keepsAlive_trans kwin h2.2.2) h3.2.2⟩

/-- Claim C9: the `alive` field of a player's state hash keeps the value
written at match start: processing any event other than a MATCH_START leaves
the `alive` field of every existing player hash unchanged (no processor
other than `MatchStartProcessor` writes it). -/
theorem C9_alive_frame (ev : GameEvent) (st : AppState)
    (h : ev.type_ ≠ EventType.MATCH_START) :
    KeepsAlive st.store (process_game_event ev st).1.store := by
  unfold process_game_event
  cases ht : ev.type_ with
  | MATCH_START => exact absurd ht h
  | MINION_KILL =>
    cases hp : ev.payload <;> try exact keepsAlive_refl _
    exact (minionKill_effects ev _ st).2.2
  | PLAYER_KILL =>
    cases hp : ev.payload <;> try exact keepsAlive_refl _
    exact (playerKill_effects ev _ st).2
  | DRAGON_KILL =>
    cases hp : ev.payload <;> try exact keepsAlive_refl _
    exact (dragonKill_effects ev _ st).2.2
  | TURRET_DESTROY =>
    cases hp : ev.payload <;> try exact keepsAlive_refl _
    exact (turretDestroy_effects ev _ st).2.2
  | MATCH_END =>
    cases hp : ev.payload <;> try exact keepsAlive_refl _
    exact (matchEnd_effects ev _ st).2
  | UNKNOWN => exact keepsAlive_refl _

theorem C9_alive_frame_witness :
    KeepsAlive startedState.store (process_game_event sampleMinion startedState).1.store :=
  C9_alive_frame sampleMinion startedState (by decide)

/-- Claim C8: an absent or unrecognized type tag parses to `UNKNOWN` (the
field default and `validate_type`'s `ValueError` fallback), and dispatching
an `UNKNOWN` event selects no processor: the whole aggregate state — match,
team and player hashes, kill and death histories — is returned unchanged
with no error. -/
theorem C8_unknown_events (v : String) (ev : GameEvent) (st : AppState) :
    parseEventType none = EventType.UNKNOWN ∧
    (v ∉ ["MATCH_START", "MINION_KILL", "PLAYER_KILL", "DRAGON_KILL", "TURRET_DESTROY",
      "MATCH_END"] → validate_type v = EventType.UNKNOWN) ∧
    (ev.type_ = EventType.UNKNOWN → process_game_event ev st = (st, none)) := by
  refine ⟨rfl, ?_, ?_⟩
  · intro hv
    simp only [List.mem_cons, List.not_mem_nil, or_false, not_or] at hv
    obtain ⟨h1, h2, h3, h4, h5, h6⟩ := hv
    unfold validate_type
    rw [if_neg h1, if_neg h2, if_neg h3, if_neg h4, if_neg h5, if_neg h6]
  · intro hu
    unfold process_game_event
    rw [hu]

theorem C8_unknown_events_witness :
    validate_type "BOGUS" = EventType.UNKNOWN ∧
    process_game_event ⟨some "m1", EventType.UNKNOWN, Payload.unknown, some 1⟩ startedState =
      (startedState, none) :=
  ⟨(C8_unknown_events "BOGUS" ⟨some "m1", .UNKNOWN, .unknown, some 1⟩ startedState).2.1
      (by decide),
    (C8_unknown_events "BOGUS" ⟨some "m1", .UNKNOWN, .unknown, some 1⟩ startedState).2.2 rfl⟩

/-! ## Counter monotonicity (claim C5) -/

theorem le_add_nonneg (x g : Int) (hg : 0 ≤ g) : x ≤ x + g := by omega

theorem le_add_one_self (x : Int) : x ≤ x + 1 := by omega

theorem evolves_minionKill (ev : GameEvent) (p : MinionKillPayload) (st : AppState)
    (hg : 0 ≤ p.gold_granted.getD 0) :
    Evolves st.store (minionKillProcess ev p st).1.store := by
  unfold minionKillProcess
  cases hgg : p.gold_granted with
  | none => exact evolves_refl _
  | some g =>
    rw [hgg] at hg
    have hg2 : (0 : Int) ≤ g := hg
    cases hm : get_match_id_for_player st.registry (some p.player_id) with
    | none => exact evolves_refl _
    | some mid =>
      dsimp only
      have e1 := evolves_playerAupd st.store (mid, p.player_id) defaultPlayerHash
        (fun h => { h with gold := h.gold + g })
        (fun h => ⟨le_add_nonneg h.gold g hg2, le_refl _, le_refl _, le_refl _⟩)
      have e2 := evolves_playerAupd
        (hincrPlayer st.store (mid, p.player_id) fun h => { h with gold := h.gold + g })
        (mid, p.player_id) defaultPlayerHash
        (fun h => { h with minion_kills := h.minion_kills + 1 })
        (fun h => ⟨le_refl _, le_add_one_self h.minion_kills, le_refl _, le_refl _⟩)
      cases hts : ev.timestamp with
      | none => exact evolves_trans e1 e2
      | some ts => exact evolves_trans (evolves_trans e1 e2) (evolves_of_parts rfl rfl)

theorem evolves_killerStep (reg : Registry) (ev : GameEvent) (p : PlayerKillPayload)
    (s : Store) (hg : 0 ≤ p.gold_granted.getD 0) :
    Evolves s (playerKillKillerStep reg ev p s).1 := by
  unfold playerKillKillerStep
  cases p.killer_id with
  | none => exact evolves_refl _
  | some k =>
    dsimp only
    cases hm : get_match_id_for_player reg (some k) with
    | none => exact evolves_refl _
    | some mid =>
      dsimp only
      cases hgg : p.gold_granted with
      | none =>
        have e1 := evolves_playerAupd s (mid, k) defaultPlayerHash
          (fun h => { h with human_kills := h.human_kills + 1 })
          (fun h => ⟨le_refl _, le_refl _, le_add_one_self h.human_kills, le_refl _⟩)
        cases hts : ev.timestamp with
        | none => exact e1
        | some ts => exact evolves_trans e1 (evolves_of_parts rfl rfl)
      | some g =>
        rw [hgg] at hg
        have hg2 : (0 : Int) ≤ g := hg
        have e0 := evolves_playerAupd s (mid, k) defaultPlayerHash
          (fun h => { h with gold := h.gold + g })
          (fun h => ⟨le_add_nonneg h.gold g hg2, le_refl _, le_refl _, le_refl _⟩)
        have e1 := evolves_playerAupd
          (hincrPlayer s (mid, k) fun h => { h with gold := h.gold + g })
          (mid, k) defaultPlayerHash
          (fun h => { h with human_kills := h.human_kills + 1 })
          (fun h => ⟨le_refl _, le_refl _, le_add_one_self h.human_kills, le_refl _⟩)
        cases hts : ev.timestamp with
        | none => exact evolves_trans e0 e1
        | some ts => exact evolves_trans (evolves_trans e0 e1) (evolves_of_parts rfl rfl)

theorem evolves_assistLoop (reg : Registry) (ag : Option Int) (hg : 0 ≤ ag.getD 0) :
    ∀ (l : List String) (s : Store), Evolves s (playerKillAssistLoop reg l ag s).1
  | [], _ => evolves_refl _
  | aId :: rest, s => by
    unfold playerKillAssistLoop
    cases hm : get_match_id_for_player reg (some aId) with
    | none => exact evolves_refl _
    | some mid =>
      dsimp only
      cases hag : ag with
      | none => exact evolves_refl _
      | some g =>
        rw [hag] at hg
        have hg2 : (0 : Int) ≤ g := hg
        have e0 := evolves_playerAupd s (mid, aId) defaultPlayerHash
          (fun h => { h with gold := h.gold + g })
          (fun h => ⟨le_add_nonneg h.gold g hg2, le_refl _, le_refl _, le_refl _⟩)
        have e1 := evolves_playerAupd
          (hincrPlayer s (mid, aId) fun h => { h with gold := h.gold + g })
          (mid, aId) defaultPlayerHash
          (fun h => { h with human_kills_assists := h.human_kills_assists + 1 })
          (fun h => ⟨le_refl _, le_refl _, le_refl _, le_add_one_self h.human_kills_assists⟩)
        have er := evolves_assistLoop reg (some g) (by exact hg) rest
          (hincrPlayer (hincrPlayer s (mid, aId) fun h => { h with gold := h.gold + g })
            (mid, aId) fun h => { h with human_kills_assists := h.human_kills_assists + 1 })
        exact evolves_trans (evolves_trans e0 e1) er

theorem evolves_pkVictimFb (reg : Registry) (ev : GameEvent) (p : PlayerKillPayload)
    (s2 : Store) :
    Evolves s2
      (match playerKillVictimStep reg ev p s2 with
       | (s3, some e) => (s3, some e)
       | (s3, none) => playerKillFirstBlood reg ev p s3).1 := by
  rcases hv : playerKillVictimStep reg ev p s2 with ⟨s3, e3⟩
  have hvs := victimStep_effects reg ev p s2
  rw [hv] at hvs
  cases e3 with
  | some e => exact evolves_of_parts hvs.1 hvs.2.1
  | none =>
    dsimp only
    have hfb := firstBlood_effects reg ev p s3
    exact evolves_trans (evolves_of_parts hvs.1 hvs.2.1) (evolves_of_parts hfb.1 hfb.2)

theorem evolves_playerKill (ev : GameEvent) (p : PlayerKillPayload) (st : AppState)
    (hg : 0 ≤ p.gold_granted.getD 0) (ha : 0 ≤ p.assist_gold.getD 0) :
    Evolves st.store (playerKillProcess ev p st).1.store := by
  unfold playerKillProcess
  rcases hk : playerKillKillerStep st.registry ev p st.store with ⟨s1, e1⟩
  have hke := evolves_killerStep st.registry ev p st.store hg
  rw [hk] at hke
  cases e1 with
  | some e => exact hke
  | none =>
    dsimp only
    cases hpa : p.assistants with
    | none =>
      dsimp only
      have ht := evolves_pkVictimFb st.registry ev p s1
      rcases hv : playerKillVictimStep st.registry ev p s1 with ⟨s3, e3⟩
      rw [hv] at ht
      cases e3 with
      | some e => exact evolves_trans hke ht
      | none => exact evolves_trans hke ht
    | some l =>
      dsimp only
      rcases hal : playerKillAssistLoop st.registry l p.assist_gold s1 with ⟨s2, e2⟩
      have hae := evolves_assistLoop st.registry p.assist_gold ha l s1
      rw [hal] at hae
      cases e2 with
      | some e => exact evolves_trans hke hae
      | none =>
        dsimp only
        have ht := evolves_pkVictimFb st.registry ev p s2
        rcases hv : playerKillVictimStep st.registry ev p s2 with ⟨s3, e3⟩
        rw [hv] at ht
        cases e3 with
        | some e => exact evolves_trans (evolves_trans hke hae) ht
        | none => exact evolves_trans (evolves_trans hke hae) ht

theorem evolves_dragonKill (ev : GameEvent) (p : DragonKillPayload) (st : AppState)
    (hg : 0 ≤ p.gold_granted.getD 0) :
    Evolves st.store (dragonKillProcess ev p st).1.store := by
  unfold dragonKillProcess
  cases hgg : p.gold_granted with
  | none => exact evolves_refl _
  | some g =>
    rw [hgg] at hg
    have hg2 : (0 : Int) ≤ g := hg
    cases hm : get_match_id_for_player st.registry (some p.killer_id) with
    | none => exact evolves_refl _
    | some mid =>
      dsimp only
      have e0 := evolves_playerAupd st.store (mid, p.killer_id) defaultPlayerHash
        (fun h => { h with gold := h.gold + g })
        (fun h => ⟨le_add_nonneg h.gold g hg2, le_refl _, le_refl _, le_refl _⟩)
      cases hts : ev.timestamp with
      | none =>
        cases hti : get_team_id st.registry (some p.killer_id) with
        | none => exact e0
        | some tid =>
          dsimp only
          cases htm : get_match_id_for_team st.registry (some tid) with
          | none => exact e0
          | some tmid =>
            exact evolves_trans e0 (evolves_teamAupd _ (tmid, tid) defaultTeamHash
              (fun h => { h with dragon_kills := h.dragon_kills + 1 })
              (fun h => ⟨le_add_one_self h.dragon_kills, le_refl _⟩))
      | some ts =>
        have e1 : Evolves (hincrPlayer st.store (mid, p.killer_id)
            fun h => { h with gold := h.gold + g })
            (add_kill_history (hincrPlayer st.store (mid, p.killer_id)
              fun h => { h with gold := h.gold + g }) (mid, p.killer_id) ts "dragon") :=
          evolves_of_parts rfl rfl
        cases hti : get_team_id st.registry (some p.killer_id) with
        | none => exact evolves_trans e0 e1
        | some tid =>
          dsimp only
          cases htm : get_match_id_for_team st.registry (some tid) with
          | none => exact evolves_trans e0 e1
          | some tmid =>
            exact evolves_trans (evolves_trans e0 e1)
              (evolves_teamAupd _ (tmid, tid) defaultTeamHash
                (fun h => { h with dragon_kills := h.dragon_kills + 1 })
                (fun h => ⟨le_add_one_self h.dragon_kills, le_refl _⟩))

theorem evolves_turretLoop (reg : Registry) (killer : String) (pgg tgg : Option Int)
    (hp : 0 ≤ pgg.getD 0) (ht : 0 ≤ tgg.getD 0) :
    ∀ (l : List String) (s : Store), Evolves s (turretGoldLoop reg killer pgg tgg l s).1
  | [], _ => evolves_refl _
  | pid :: rest, s => by
    unfold turretGoldLoop
    cases hg : (if pid = killer then pgg else tgg) with
    | none => exact evolves_turretLoop reg killer pgg tgg hp ht rest s
    | some g =>
      have hg2 : (0 : Int) ≤ g := by
        by_cases hpk : pid = killer
        · rw [if_pos hpk] at hg
          rw [hg] at hp
          exact hp
        · rw [if_neg hpk] at hg
          rw [hg] at ht
          exact ht
      cases hm : get_match_id_for_player reg (some pid) with
      | none => exact evolves_refl _
      | some mid =>
        dsimp only
        have e0 := evolves_playerAupd s (mid, pid) defaultPlayerHash
          (fun h => { h with gold := h.gold + g })
          (fun h => ⟨le_add_nonneg h.gold g hg2, le_refl _, le_refl _, le_refl _⟩)
        exact evolves_trans e0 (evolves_turretLoop reg killer pgg tgg hp ht rest _)

theorem evolves_turretDestroy (ev : GameEvent) (p : TurretDestroyPayload) (st : AppState)
    (hp : 0 ≤ p.player_gold_granted.getD 0) (ht : 0 ≤ p.team_gold_granted.getD 0) :
    Evolves st.store (turretDestroyProcess ev p st).1.store := by
  unfold turretDestroyProcess
  cases p.killer_id with
  | none => exact evolves_refl _
  | some killer =>
    dsimp only
    cases p.killer_team_id with
    | none => exact evolves_refl _
    | some tid =>
      dsimp only
      cases htm : get_match_id_for_team st.registry (some tid) with
      | none => exact evolves_refl _
      | some tmid =>
        dsimp only
        rcases hl : turretGoldLoop st.registry killer p.player_gold_granted
            p.team_gold_granted (players_for_team st.registry (some tid))
            (hincrTeam st.store (tmid, tid) fun h =>
              { h with tower_kills := h.tower_kills + 1 }) with ⟨s2, e2⟩
        have hle := evolves_turretLoop st.registry killer p.player_gold_granted
          p.team_gold_granted hp ht (players_for_team st.registry (some tid))
          (hincrTeam st.store (tmid, tid) fun h =>
            { h with tower_kills := h.tower_kills + 1 })
        rw [hl] at hle
        exact evolves_trans (evolves_teamAupd _ (tmid, tid) defaultTeamHash
          (fun h => { h with tower_kills := h.tower_kills + 1 })
          (fun h => ⟨le_refl _, le_add_one_self h.tower_kills⟩)) hle

theorem evolves_killStreaksLoop (reg : Registry) :
    ∀ (l : List String) (s : Store), Evolves s (killStreaksLoop reg l s).1
  | [], _ => evolves_refl _
  | pid :: rest, s => by
    unfold killStreaksLoop
    dsimp only
    cases hm : get_match_id_for_player reg (some pid) with
    | none => exact evolves_refl _
    | some mid =>
      dsimp only
      have e0 := evolves_playerAupd s (mid, pid) defaultPlayerHash
        (fun h => { h with kill_streaks := some (calculate_kill_streaks
          (((alookup s.killHistories (mid, pid)).getD []).map (·.timestamp))
          kill_streak_time_window) })
        (fun h => ⟨le_refl _, le_refl _, le_refl _, le_refl _⟩)
      exact evolves_trans e0 (evolves_killStreaksLoop reg rest _)

theorem evolves_killingSpreesLoop (reg : Registry) :
    ∀ (l : List String) (s : Store), Evolves s (killingSpreesLoop reg l s).1
  | [], _ => evolves_refl _
  | pid :: rest, s => by
    unfold killingSpreesLoop
    dsimp only
    cases hm : get_match_id_for_player reg (some pid) with
    | none => exact evolves_refl _
    | some mid =>
      dsimp only
      have e0 := evolves_playerAupd s (mid, pid) defaultPlayerHash
        (fun h => { h with max_killing_spree := some (calculate_max_killing_spree
          ((alookup s.killHistories (mid, pid)).getD [])
          ((alookup s.deathHistories (mid, pid)).getD [])) })
        (fun h => ⟨le_refl _, le_refl _, le_refl _, le_refl _⟩)
      exact evolves_trans e0 (evolves_killingSpreesLoop reg rest _)

theorem evolves_matchEnd (ev : GameEvent) (p : MatchEndPayload) (st : AppState) :
    Evolves st.store (matchEndProcess ev p st).1.store := by
  unfold matchEndProcess
  dsimp only
  rcases hs2 : killStreaksLoop st.registry
      (players_for_match st.registry (matchKeyOf ev.match_id))
      (matchEndWriteWinning (matchKeyOf ev.match_id) p.winning_team_id st.store) with ⟨s2, e2⟩
  have h2 := evolves_killStreaksLoop st.registry
    (players_for_match st.registry (matchKeyOf ev.match_id))
    (matchEndWriteWinning (matchKeyOf ev.match_id) p.winning_team_id st.store)
  rw [hs2] at h2
  have ewin : Evolves st.store
      (matchEndWriteWinning (matchKeyOf ev.match_id) p.winning_team_id st.store) :=
    evolves_of_parts rfl rfl
  cases e2 with
  | some e => exact evolves_trans ewin h2
  | none =>
    dsimp only
    rcases hs3 : killingSpreesLoop st.registry
        (players_for_match st.registry (matchKeyOf ev.match_id)) s2 with ⟨s3, e3⟩
    have h3 := evolves_killingSpreesLoop st.registry
      (players_for_match st.registry (matchKeyOf ev.match_id)) s2
    rw [hs3] at h3
    exact evolves_trans (evolves_trans ewin h2) h3

/-- Claim C5 (amended): for every event other than a (re-delivered)
MATCH_START whose payload gold amounts are non-negative, a processor step
never lowers any counter: every existing player hash keeps gold,
minion_kills, human_kills and human_kills_assists at least as large, and
every existing team hash keeps dragon_kills and tower_kills at least as
large. (The claim as frozen fails for negative gold grants and for a
re-delivered MATCH_START, see the counterexample.) -/
theorem C5_counters_monotone_amended (ev : GameEvent) (st : AppState)
    (h1 : ev.type_ ≠ EventType.MATCH_START) (h2 : payloadGoldNonneg ev.payload) :
    Evolves st.store (process_game_event ev st).1.store := by
  unfold process_game_event
  cases ht : ev.type_ with
  | MATCH_START => exact absurd ht h1
  | MINION_KILL =>
    cases hp : ev.payload <;> try exact evolves_refl _
    rw [hp] at h2
    exact evolves_minionKill ev _ st h2
  | PLAYER_KILL =>
    cases hp : ev.payload <;> try exact evolves_refl _
    rw [hp] at h2
    exact evolves_playerKill ev _ st h2.1 h2.2
  | DRAGON_KILL =>
    cases hp : ev.payload <;> try exact evolves_refl _
    rw [hp] at h2
    exact evolves_dragonKill ev _ st h2
  | TURRET_DESTROY =>
    cases hp : ev.payload <;> try exact evolves_refl _
    rw [hp] at h2
    exact evolves_turretDestroy ev _ st h2.1 h2.2
  | MATCH_END =>
    cases hp : ev.payload <;> try exact evolves_refl _
    exact evolves_matchEnd ev _ st
  | UNKNOWN => exact evolves_refl _

theorem C5_counters_monotone_amended_witness :
    Evolves startedState.store (process_game_event sampleMinion startedState).1.store :=
  C5_counters_monotone_amended sampleMinion startedState (by decide)
    (show (0 : Int) ≤ 20 by decide)

/-- Counterexample to claim C5 as frozen: a MINION_KILL carrying a negative
`goldGranted` lowers the player's gold counter (100 to 95), and a
re-delivered MATCH_START resets `minion_kills` from 1 back to 0. -/
theorem C5_counterexample :
    ((alookup (process_game_event sampleMinionNegGold startedState).1.store.playerHashes
        ("m1", "p1")).map (·.gold) = some 95 ∧
      (alookup startedState.store.playerHashes ("m1", "p1")).map (·.gold) = some 100) ∧
    ((alookup (processSeq [sampleMinion, sampleMatchStart] startedState).store.playerHashes
        ("m1", "p1")).map (·.minion_kills) = some 0 ∧
      (alookup (processSeq [sampleMinion] startedState).store.playerHashes
        ("m1", "p1")).map (·.minion_kills) = some 1) := by
  refine ⟨⟨?_, ?_⟩, ?_, ?_⟩ <;> decide

/-! ## Registry-listing lemmas and claim C7 -/

theorem alookup_keys_exists {α β : Type} [DecidableEq α] (l : List (α × β)) (a : α)
    (h : a ∈ l.map (·.1)) : ∃ v, alookup l a = some v := by
  induction l with
  | nil => simp at h
  | cons kv rest ih =>
    obtain ⟨k, v⟩ := kv
    by_cases hk : k = a
    · exact ⟨v, by rw [alookup, if_pos hk]⟩
    · rw [alookup, if_neg hk]
      refine ih ?_
      rcases List.mem_cons.mp h with h1 | h1
      · exact absurd h1.symm hk
      · exact h1

theorem alookup_eq_of_mem_nodup {α β : Type} [DecidableEq α] (l : List (α × β)) (a : α)
    (v : β) (hm : (a, v) ∈ l) (hnd : (l.map (·.1)).Nodup) : alookup l a = some v := by
  induction l with
  | nil => simp at hm
  | cons kv rest ih =>
    obtain ⟨k, w⟩ := kv
    rw [List.map_cons, List.nodup_cons] at hnd
    rcases List.mem_cons.mp hm with h1 | h1
    · obtain ⟨ha, hv⟩ := Prod.mk.injEq .. ▸ (by exact h1.symm ▸ rfl : (a, v) = (k, w))
      rw [alookup, if_pos ha.symm]
      rw [hv]
    · have hka : k ≠ a := by
        intro hk
        exact hnd.1 (hk ▸ (List.mem_map.mpr ⟨(a, v), h1, rfl⟩))
      rw [alookup, if_neg hka]
      exact ih h1 hnd.2

theorem mem_filter_map_fst {α β : Type} [DecidableEq α] (l : List (α × β))
    (P : α × β → Bool) (a : α) (v : β) (h : alookup l a = some v) (hP : P (a, v) = true) :
    a ∈ (l.filter P).map (·.1) := by
  induction l with
  | nil => simp [alookup] at h
  | cons kv rest ih =>
    obtain ⟨k, w⟩ := kv
    rw [alookup] at h
    by_cases hk : k = a
    · rw [if_pos hk] at h
      obtain rfl : w = v := Option.some.injEq .. ▸ h
      subst hk
      rw [List.filter_cons, if_pos hP]
      exact List.mem_cons_self _ _
    · rw [if_neg hk] at h
      rw [List.filter_cons]
      by_cases hPk : P (k, w)
      · rw [if_pos hPk]
        exact List.mem_cons_of_mem _ (ih h)
      · rw [if_neg hPk]
        exact ih h

theorem exists_of_mem_filter_map_fst {α β : Type} [DecidableEq α] (l : List (α × β))
    (P : α × β → Bool) (a : α) (h : a ∈ (l.filter P).map (·.1)) :
    ∃ v, (a, v) ∈ l ∧ P (a, v) = true := by
  induction l with
  | nil => simp at h
  | cons kv rest ih =>
    obtain ⟨k, w⟩ := kv
    rw [List.filter_cons] at h
    by_cases hPk : P (k, w)
    · rw [if_pos hPk, List.map_cons] at h
      rcases List.mem_cons.mp h with h1 | h1
      · subst h1
        exact ⟨w, List.mem_cons_self _ _, hPk⟩
      · obtain ⟨v, hv1, hv2⟩ := ih h1
        exact ⟨v, List.mem_cons_of_mem _ hv1, hv2⟩
    · rw [if_neg hPk] at h
      obtain ⟨v, hv1, hv2⟩ := ih h
      exact ⟨v, List.mem_cons_of_mem _ hv1, hv2⟩

theorem nodup_filter_map_fst {α β : Type} [DecidableEq α] (l : List (α × β))
    (P : α × β → Bool) (hnd : (l.map (·.1)).Nodup) : ((l.filter P).map (·.1)).Nodup := by
  refine hnd.sublist ?_
  exact List.Sublist.map _ (List.filter_sublist l)

theorem turretLoop_spec (reg : Registry) (killer : String) (pgg tgg : Option Int) :
    ∀ (pids : List String) (s : Store),
      pids.Nodup →
      (∀ pid ∈ pids, ∃ e, alookup reg._matches pid = some e) →
      (turretGoldLoop reg killer pgg tgg pids s).2 = none ∧
      (∀ key : String × String, key.2 ∉ pids →
        alookup (turretGoldLoop reg killer pgg tgg pids s).1.playerHashes key =
          alookup s.playerHashes key) ∧
      (∀ pid ∈ pids, ∀ mid, get_match_id_for_player reg (some pid) = some mid →
        alookup (turretGoldLoop reg killer pgg tgg pids s).1.playerHashes (mid, pid) =
          (match (if pid = killer then pgg else tgg) with
           | none => alookup s.playerHashes (mid, pid)
           | some g =>
             some { (alookup s.playerHashes (mid, pid)).getD defaultPlayerHash with
               gold := ((alookup s.playerHashes (mid, pid)).getD defaultPlayerHash).gold + g }))
  | [], s => by
    intro _ _
    refine ⟨rfl, fun key _ => rfl, fun pid hmem => absurd hmem (List.not_mem_nil pid)⟩
  | pid0 :: rest, s => by
    intro hnd hex
    have hnd0 : pid0 ∉ rest := (List.nodup_cons.mp hnd).1
    have hndr : rest.Nodup := (List.nodup_cons.mp hnd).2
    have hexr : ∀ pid ∈ rest, ∃ e, alookup reg._matches pid = some e :=
      fun pid hp => hex pid (List.mem_cons_of_mem _ hp)
    unfold turretGoldLoop
    cases hgg : (if pid0 = killer then pgg else tgg) with
    | none =>
      obtain ⟨ih1, ih2, ih3⟩ := turretLoop_spec reg killer pgg tgg rest s hndr hexr
      refine ⟨ih1, ?_, ?_⟩
      · intro key hk
        exact ih2 key (fun hmem => hk (List.mem_cons_of_mem _ hmem))
      · intro pid hmem mid hmid
        rcases List.mem_cons.mp hmem with h1 | h1
        · subst h1
          rw [hgg]
          exact ih2 (mid, pid) hnd0
        · exact ih3 pid h1 mid hmid
    | some g =>
      obtain ⟨e0, he0⟩ := hex pid0 (List.mem_cons_self _ _)
      cases hm : get_match_id_for_player reg (some pid0) with
      | none =>
        exfalso
        have : get_match_id_for_player reg (some pid0) = some e0.1 := by
          show (alookup reg._matches pid0).map (·.1) = some e0.1
          rw [he0]
          rfl
        rw [hm] at this
        exact Option.noConfusion this
      | some mid0 =>
        dsimp only
        obtain ⟨ih1, ih2, ih3⟩ := turretLoop_spec reg killer pgg tgg rest
          (hincrPlayer s (mid0, pid0) fun h => { h with gold := h.gold + g }) hndr hexr
        refine ⟨ih1, ?_, ?_⟩
        · intro key hk
          have h1 := ih2 key (fun hmem => hk (List.mem_cons_of_mem _ hmem))
          rw [h1]
          show alookup (aupd (mid0, pid0) defaultPlayerHash _ s.playerHashes) key =
            alookup s.playerHashes key
          exact alookup_aupd_ne _ _ _ _ _ (fun hke => hk (hke ▸ List.mem_cons_self _ _))
        · intro pid hmem mid hmid
          rcases List.mem_cons.mp hmem with h1 | h1
          · subst h1
            have hmid0 : mid = mid0 := by
              rw [hm] at hmid
              exact (Option.some.injEq .. ▸ hmid).symm
            subst hmid0
            rw [hgg]
            have h2 := ih2 (mid, pid) hnd0
            rw [h2]
            show alookup (aupd (mid, pid) defaultPlayerHash _ s.playerHashes) (mid, pid) = _
            rw [alookup_aupd_self]
          · have h3 := ih3 pid h1 mid hmid
            rw [h3]
            have hne : pid ≠ pid0 := fun he => hnd0 (he ▸ h1)
            have h4 : alookup (hincrPlayer s (mid0, pid0)
                fun h => { h with gold := h.gold + g }).playerHashes (mid, pid) =
                alookup s.playerHashes (mid, pid) := by
              show alookup (aupd (mid0, pid0) defaultPlayerHash _ s.playerHashes) (mid, pid) =
                alookup s.playerHashes (mid, pid)
              exact alookup_aupd_ne _ _ _ _ _ (fun hke => hne (congrArg Prod.snd hke))
            rw [h4]

theorem ph_gold_add_zero (ph : PlayerHash) : ({ ph with gold := ph.gold + 0 }) = ph := by
  cases ph
  simp

/-- Claim C7: a TURRET_DESTROY without `killerID` is a no-op; with `killerID`
present and a registered `killerTeamID`, the team's `tower_kills` is
incremented, each registered player of that team has their gold incremented
by `playerGoldGranted` (the killer) or `teamGoldGranted` (teammates), the
increment being skipped when the applicable value is absent, players of
other teams are untouched, and no error is raised — in particular with both
gold fields absent only the team counter changes. -/
theorem C7_turret_destroy (ev : GameEvent) (p : TurretDestroyPayload) (st : AppState)
    (k t tmid : String)
    (hty : ev.type_ = EventType.TURRET_DESTROY) (hpl : ev.payload = Payload.turretDestroy p)
    (hnd : (st.registry._matches.map (·.1)).Nodup) :
    (p.killer_id = none → process_game_event ev st = (st, none)) ∧
    (p.killer_id = some k → p.killer_team_id = some t →
      get_match_id_for_team st.registry (some t) = some tmid →
      (process_game_event ev st).2 = none ∧
      alookup (process_game_event ev st).1.store.teamHashes (tmid, t) =
        some ⟨((alookup st.store.teamHashes (tmid, t)).getD defaultTeamHash).dragon_kills,
          ((alookup st.store.teamHashes (tmid, t)).getD defaultTeamHash).tower_kills + 1⟩ ∧
      (∀ pid m2 ph, alookup st.registry._matches pid = some (m2, t) →
        alookup st.store.playerHashes (m2, pid) = some ph →
        alookup (process_game_event ev st).1.store.playerHashes (m2, pid) =
          some { ph with gold := ph.gold +
            ((if pid = k then p.player_gold_granted else p.team_gold_granted).getD 0) }) ∧
      (∀ pid m2 t2, alookup st.registry._matches pid = some (m2, t2) → t2 ≠ t →
        alookup (process_game_event ev st).1.store.playerHashes (m2, pid) =
          alookup st.store.playerHashes (m2, pid))) := by
  have hdisp : process_game_event ev st = turretDestroyProcess ev p st := by
    unfold process_game_event
    rw [hty, hpl]
  constructor
  · intro hk
    rw [hdisp]
    unfold turretDestroyProcess
    rw [hk]
  · intro hk ht htm
    rw [hdisp]
    unfold turretDestroyProcess
    rw [hk]
    dsimp only
    rw [ht]
    dsimp only
    rw [htm]
    dsimp only
    set s1 := hincrTeam st.store (tmid, t)
      (fun h => { h with tower_kills := h.tower_kills + 1 }) with hs1
    have hpids_nd : (players_for_team st.registry (some t)).Nodup :=
      nodup_filter_map_fst _ _ hnd
    have hpids_ex : ∀ pid ∈ players_for_team st.registry (some t),
        ∃ e, alookup st.registry._matches pid = some e := by
      intro pid hmem
      obtain ⟨v, hv, -⟩ := exists_of_mem_filter_map_fst _ _ pid hmem
      exact ⟨v, alookup_eq_of_mem_nodup _ _ _ hv hnd⟩
    obtain ⟨l1, l2, l3⟩ := turretLoop_spec st.registry k p.player_gold_granted
      p.team_gold_granted (players_for_team st.registry (some t)) s1 hpids_nd hpids_ex
    refine ⟨l1, ?_, ?_, ?_⟩
    · have hteam : (turretGoldLoop st.registry k p.player_gold_granted p.team_gold_granted
          (players_for_team st.registry (some t)) s1).1.teamHashes = s1.teamHashes :=
        (turretLoop_effects st.registry k p.player_gold_granted p.team_gold_granted
          (players_for_team st.registry (some t)) s1).2.1
      rw [hteam, hs1]
      show alookup (aupd (tmid, t) defaultTeamHash _ st.store.teamHashes) (tmid, t) = _
      rw [alookup_aupd_self]
    · intro pid m2 ph hreg hph
      have hmem : pid ∈ players_for_team st.registry (some t) := by
        show pid ∈ (st.registry._matches.filter fun kv => kv.2.2 = t).map (·.1)
        exact mem_filter_map_fst _ _ pid (m2, t) hreg (by simp)
      have hmid : get_match_id_for_player st.registry (some pid) = some m2 := by
        show (alookup st.registry._matches pid).map (·.1) = some m2
        rw [hreg]
        rfl
      have h3 := l3 pid hmem m2 hmid
      have hs1ph : alookup s1.playerHashes (m2, pid) = some ph := hph
      rw [hs1ph] at h3
      rw [h3]
      cases hgv : (if pid = k then p.player_gold_granted else p.team_gold_granted) with
      | none =>
        show some ph = some { ph with gold := ph.gold + 0 }
        rw [ph_gold_add_zero]
      | some g => rfl
    · intro pid m2 t2 hreg hne
      have hnmem : pid ∉ players_for_team st.registry (some t) := by
        intro hmem
        obtain ⟨v, hv1, hv2⟩ := exists_of_mem_filter_map_fst _ _ pid hmem
        have := alookup_eq_of_mem_nodup _ _ _ hv1 hnd
        rw [hreg] at this
        obtain rfl : (m2, t2) = v := Option.some.injEq .. ▸ this
        simp at hv2
        exact hne hv2
      have h2 := l2 (m2, pid) hnmem
      rw [h2]
      rfl

theorem C7_turret_destroy_witness :
    (process_game_event sampleTurretBare startedState).2 = none ∧
    alookup (process_game_event sampleTurretBare startedState).1.store.teamHashes
      ("m1", "t1") = some ⟨0, 1⟩ ∧
    (alookup (process_game_event sampleTurretBare startedState).1.store.playerHashes
      ("m1", "p1")).map (·.gold) = some 100 := by
  obtain ⟨-, hb⟩ := C7_turret_destroy sampleTurretBare
    ⟨some "p1", some "t1", none, none, none, none⟩ startedState "p1" "t1" "m1"
    rfl rfl (by decide)
  obtain ⟨h1, h2, h3, -⟩ := hb rfl rfl (by decide)
  refine ⟨h1, ?_, ?_⟩
  · rw [h2]
    decide
  · have := h3 "p1" "m1" ⟨"p1", 100, 1, "Alice", 0, 0, 0, ["p2"], none, none⟩
      (by decide) (by decide)
    rw [this]
    decide

/-! ## MATCH_START lemmas and claim C6 -/

theorem writeTeams_frames (mid : String) :
    ∀ (ts : List MatchTeam) (s : Store),
      (matchStartWriteTeams mid ts s).matchHashes = s.matchHashes ∧
      (matchStartWriteTeams mid ts s).playerHashes = s.playerHashes
  | [], _ => ⟨rfl, rfl⟩
  | t :: rest, s => writeTeams_frames mid rest _

theorem writeTeams_keeps_default (mid : String) :
    ∀ (ts : List MatchTeam) (s : Store) (key : String × String),
      alookup s.teamHashes key = some defaultTeamHash →
      alookup (matchStartWriteTeams mid ts s).teamHashes key = some defaultTeamHash
  | [], _, _, h => h
  | t :: rest, s, key, h => by
    unfold matchStartWriteTeams
    refine writeTeams_keeps_default mid rest _ key ?_
    by_cases hk : key = (mid, t.team_id)
    · subst hk
      show alookup (aset (mid, t.team_id) defaultTeamHash s.teamHashes) _ = _
      rw [alookup_aset_self]
    · show alookup (aset (mid, t.team_id) defaultTeamHash s.teamHashes) key = _
      rw [alookup_aset_ne _ _ _ _ hk]
      exact h

theorem writeTeams_written (mid : String) :
    ∀ (ts : List MatchTeam) (s : Store) (t : MatchTeam), t ∈ ts →
      alookup (matchStartWriteTeams mid ts s).teamHashes (mid, t.team_id) =
        some defaultTeamHash
  | [], _, t, ht => absurd ht (List.not_mem_nil t)
  | t0 :: rest, s, t, ht => by
    unfold matchStartWriteTeams
    rcases List.mem_cons.mp ht with h1 | h1
    · subst h1
      refine writeTeams_keeps_default mid rest _ _ ?_
      show alookup (aset (mid, t.team_id) defaultTeamHash s.teamHashes) _ = _
      rw [alookup_aset_self]
    · exact writeTeams_written mid rest _ t h1

theorem rpl_frames (mid : String) (t : MatchTeam) :
    ∀ (pls : List MatchPlayer) (st : AppState),
      (registerPlayersLoop mid t pls st).store.matchHashes = st.store.matchHashes ∧
      (registerPlayersLoop mid t pls st).store.teamHashes = st.store.teamHashes
  | [], _ => ⟨rfl, rfl⟩
  | pl :: rest, st => rpl_frames mid t rest _

theorem rpl_reg_frame (mid : String) (t : MatchTeam) :
    ∀ (pls : List MatchPlayer) (st : AppState) (pid : String),
      pid ∉ pls.map (·.player_id) →
      alookup (registerPlayersLoop mid t pls st).registry._matches pid =
        alookup st.registry._matches pid
  | [], _, _, _ => rfl
  | pl :: rest, st, pid, h => by
    unfold registerPlayersLoop
    have h2 : pid ∉ rest.map (·.player_id) := fun hm =>
      h (by rw [List.map_cons]; exact List.mem_cons_of_mem _ hm)
    rw [rpl_reg_frame mid t rest _ pid h2]
    show alookup (aset pl.player_id (mid, t.team_id) st.registry._matches) pid = _
    refine alookup_aset_ne _ _ _ _ ?_
    intro he
    exact h (by rw [List.map_cons, he]; exact List.mem_cons_self _ _)

theorem rpl_hash_frame (mid : String) (t : MatchTeam) :
    ∀ (pls : List MatchPlayer) (st : AppState) (key : String × String),
      key.2 ∉ pls.map (·.player_id) →
      alookup (registerPlayersLoop mid t pls st).store.playerHashes key =
        alookup st.store.playerHashes key
  | [], _, _, _ => rfl
  | pl :: rest, st, key, h => by
    unfold registerPlayersLoop
    have h2 : key.2 ∉ rest.map (·.player_id) := fun hm =>
      h (by rw [List.map_cons]; exact List.mem_cons_of_mem _ hm)
    rw [rpl_hash_frame mid t rest _ key h2]
    show alookup (aset (mid, pl.player_id) _ st.store.playerHashes) key = _
    refine alookup_aset_ne _ _ _ _ ?_
    intro he
    exact h (by rw [List.map_cons, congrArg Prod.snd he]; exact List.mem_cons_self _ _)

theorem rpl_reg_written (mid : String) (t : MatchTeam) :
    ∀ (pls : List MatchPlayer) (st : AppState),
      (pls.map (·.player_id)).Nodup →
      ∀ pl ∈ pls,
        alookup (registerPlayersLoop mid t pls st).registry._matches pl.player_id =
          some (mid, t.team_id)
  | [], _, _, pl, hm => absurd hm (List.not_mem_nil pl)
  | pl0 :: rest, st, hnd, pl, hm => by
    rw [List.map_cons, List.nodup_cons] at hnd
    unfold registerPlayersLoop
    rcases List.mem_cons.mp hm with h1 | h1
    · subst h1
      have hni : pl.player_id ∉ rest.map (·.player_id) := hnd.1
      rw [rpl_reg_frame mid t rest _ pl.player_id hni]
      show alookup (aset pl.player_id (mid, t.team_id) st.registry._matches) _ = _
      rw [alookup_aset_self]
    · exact rpl_reg_written mid t rest _ hnd.2 pl h1

theorem rpl_hash_written (mid : String) (t : MatchTeam) :
    ∀ (pls : List MatchPlayer) (st : AppState),
      (pls.map (·.player_id)).Nodup →
      ∀ pl ∈ pls, ∃ old,
        alookup (registerPlayersLoop mid t pls st).store.playerHashes (mid, pl.player_id) =
          some (playerHashInit pl
            ((t.players.filter fun q => q.player_id ≠ pl.player_id).map (·.player_id)) old)
  | [], _, _, pl, hm => absurd hm (List.not_mem_nil pl)
  | pl0 :: rest, st, hnd, pl, hm => by
    rw [List.map_cons, List.nodup_cons] at hnd
    unfold registerPlayersLoop
    rcases List.mem_cons.mp hm with h1 | h1
    · subst h1
      have hni : ((mid, pl.player_id) : String × String).2 ∉ rest.map (·.player_id) := hnd.1
      rw [rpl_hash_frame mid t rest _ (mid, pl.player_id) hni]
      refine ⟨alookup st.store.playerHashes (mid, pl.player_id), ?_⟩
      show alookup (aset (mid, pl.player_id) _ st.store.playerHashes) _ = _
      rw [alookup_aset_self]
    · exact rpl_hash_written mid t rest _ hnd.2 pl h1

theorem rpl_teams_keep (mid : String) (t : MatchTeam) :
    ∀ (pls : List MatchPlayer) (st : AppState) (key : String),
      alookup st.registry._teams key = some mid →
      alookup (registerPlayersLoop mid t pls st).registry._teams key = some mid
  | [], _, _, h => h
  | pl :: rest, st, key, h => by
    unfold registerPlayersLoop
    refine rpl_teams_keep mid t rest _ key ?_
    by_cases hk : key = t.team_id
    · show alookup (aset t.team_id mid st.registry._teams) key = some mid
      rw [hk, alookup_aset_self]
    · show alookup (aset t.team_id mid st.registry._teams) key = some mid
      rw [alookup_aset_ne _ _ _ _ hk]
      exact h

theorem rpl_teams_written (mid : String) (t : MatchTeam) :
    ∀ (pls : List MatchPlayer) (st : AppState), pls ≠ [] →
      alookup (registerPlayersLoop mid t pls st).registry._teams t.team_id = some mid
  | [], _, hne => absurd rfl hne
  | pl :: rest, st, _ => by
    unfold registerPlayersLoop
    refine rpl_teams_keep mid t rest _ t.team_id ?_
    show alookup (aset t.team_id mid st.registry._teams) t.team_id = some mid
    rw [alookup_aset_self]

theorem rpl_teams_frame (mid : String) (t : MatchTeam) :
    ∀ (pls : List MatchPlayer) (st : AppState) (key : String), key ≠ t.team_id →
      alookup (registerPlayersLoop mid t pls st).registry._teams key =
        alookup st.registry._teams key
  | [], _, _, _ => rfl
  | pl :: rest, st, key, h => by
    unfold registerPlayersLoop
    rw [rpl_teams_frame mid t rest _ key h]
    show alookup (aset t.team_id mid st.registry._teams) key = _
    exact alookup_aset_ne _ _ _ _ h

theorem rtl_frames (mid : String) :
    ∀ (ts : List MatchTeam) (st : AppState),
      (registerTeamsLoop mid ts st).store.matchHashes = st.store.matchHashes ∧
      (registerTeamsLoop mid ts st).store.teamHashes = st.store.teamHashes
  | [], _ => ⟨rfl, rfl⟩
  | t :: rest, st => by
    unfold registerTeamsLoop
    obtain ⟨h1, h2⟩ := rtl_frames mid rest (registerTeamPlayers mid t st)
    obtain ⟨h3, h4⟩ := rpl_frames mid t t.players st
    exact ⟨h1.trans h3, h2.trans h4⟩

theorem rtl_reg_frame (mid : String) :
    ∀ (ts : List MatchTeam) (st : AppState) (pid : String),
      pid ∉ allPlayerIds ts →
      alookup (registerTeamsLoop mid ts st).registry._matches pid =
        alookup st.registry._matches pid
  | [], _, _, _ => rfl
  | t :: rest, st, pid, h => by
    unfold registerTeamsLoop
    rw [allPlayerIds, List.mem_append, not_or] at h
    rw [rtl_reg_frame mid rest _ pid h.2]
    exact rpl_reg_frame mid t t.players st pid h.1

theorem rtl_hash_frame (mid : String) :
    ∀ (ts : List MatchTeam) (st : AppState) (key : String × String),
      key.2 ∉ allPlayerIds ts →
      alookup (registerTeamsLoop mid ts st).store.playerHashes key =
        alookup st.store.playerHashes key
  | [], _, _, _ => rfl
  | t :: rest, st, key, h => by
    unfold registerTeamsLoop
    rw [allPlayerIds, List.mem_append, not_or] at h
    rw [rtl_hash_frame mid rest _ key h.2]
    exact rpl_hash_frame mid t t.players st key h.1

theorem rtl_teams_keep (mid : String) :
    ∀ (ts : List MatchTeam) (st : AppState) (key : String),
      alookup st.registry._teams key = some mid →
      alookup (registerTeamsLoop mid ts st).registry._teams key = some mid
  | [], _, _, h => h
  | t :: rest, st, key, h => by
    unfold registerTeamsLoop
    exact rtl_teams_keep mid rest _ key (rpl_teams_keep mid t t.players st key h)

theorem rtl_teams_written (mid : String) :
    ∀ (ts : List MatchTeam) (st : AppState) (t : MatchTeam), t ∈ ts → t.players ≠ [] →
      alookup (registerTeamsLoop mid ts st).registry._teams t.team_id = some mid
  | [], _, t, hm, _ => absurd hm (List.not_mem_nil t)
  | t0 :: rest, st, t, hm, hne => by
    unfold registerTeamsLoop
    rcases List.mem_cons.mp hm with h1 | h1
    · subst h1
      exact rtl_teams_keep mid rest _ t.team_id
        (rpl_teams_written mid t t.players st hne)
    · exact rtl_teams_written mid rest _ t h1 hne

theorem rtl_main (mid : String) :
    ∀ (ts : List MatchTeam) (st : AppState),
      (allPlayerIds ts).Nodup →
      ∀ t ∈ ts, ∀ pl ∈ t.players,
        alookup (registerTeamsLoop mid ts st).registry._matches pl.player_id =
          some (mid, t.team_id) ∧
        ∃ old,
          alookup (registerTeamsLoop mid ts st).store.playerHashes (mid, pl.player_id) =
            some (playerHashInit pl
              ((t.players.filter fun q => q.player_id ≠ pl.player_id).map (·.player_id)) old)
  | [], _, _, t, hm => absurd hm (List.not_mem_nil t)
  | t0 :: rest, st, hnd, t, hm => by
    rw [allPlayerIds] at hnd
    rw [List.nodup_append] at hnd
    obtain ⟨hnd1, hnd2, hdis⟩ := hnd
    unfold registerTeamsLoop
    rcases List.mem_cons.mp hm with h1 | h1
    · subst h1
      intro pl hpl
      have hpid : pl.player_id ∈ t.players.map (·.player_id) :=
        List.mem_map.mpr ⟨pl, hpl, rfl⟩
      have hni : pl.player_id ∉ allPlayerIds rest := hdis hpid
      constructor
      · rw [rtl_reg_frame mid rest _ pl.player_id hni]
        exact rpl_reg_written mid t t.players st hnd1 pl hpl
      · obtain ⟨old, hold⟩ := rpl_hash_written mid t t.players st hnd1 pl hpl
        refine ⟨old, ?_⟩
        rw [rtl_hash_frame mid rest _ (mid, pl.player_id) hni]
        exact hold
    · exact rtl_main mid rest _ hnd2 t h1

/-- Claim C6 (amended): a MATCH_START event carrying a `matchID` and a fresh
match hash writes the match hash with the sentinel `first_blood` and no
`winning_team_id`, zeroed team counters for every team, and for every
player (payload player ids assumed distinct) a player hash holding the
payload's gold/alive/name, zeroed counters and the sibling `team_members`
list, registering every player to (match, team); the (teamID, match)
registration happens for every team with at least one player (a team with
no players is never registered, and a MATCH_START without a matchID raises
in the client — see the counterexample). -/
theorem C6_match_start_amended (ev : GameEvent) (p : MatchStartPayload) (st : AppState)
    (mid : String)
    (hty : ev.type_ = EventType.MATCH_START) (hpl : ev.payload = Payload.matchStart p)
    (hmid : ev.match_id = some mid)
    (hfresh : alookup st.store.matchHashes mid = none)
    (hnd : (allPlayerIds p.teams).Nodup) :
    (∃ mh, alookup (process_game_event ev st).1.store.matchHashes mid = some mh ∧
      mh.first_blood = some FirstBlood.sentinel ∧
      mh.winning_team_id = none ∧
      mh.teams = p.teams.map (fun t => (t.team_id, t.players.map (·.player_id))) ∧
      mh.match_id = mid ∧ mh.start_time = p.fixture.start_time ∧ mh.title = p.fixture.title) ∧
    (∀ t ∈ p.teams,
      alookup (process_game_event ev st).1.store.teamHashes (mid, t.team_id) = some ⟨0, 0⟩) ∧
    (∀ t ∈ p.teams, ∀ pl ∈ t.players, ∃ ph,
      alookup (process_game_event ev st).1.store.playerHashes (mid, pl.player_id) = some ph ∧
      ph.player_id = pl.player_id ∧ ph.gold = pl.gold ∧
      ph.alive = (if pl.alive then 1 else 0) ∧ ph.name = pl.name ∧
      ph.minion_kills = 0 ∧ ph.human_kills = 0 ∧ ph.human_kills_assists = 0 ∧
      ph.team_members =
        ((t.players.filter fun q => q.player_id ≠ pl.player_id).map (·.player_id))) ∧
    (∀ t ∈ p.teams, ∀ pl ∈ t.players,
      get_match_id_for_player (process_game_event ev st).1.registry (some pl.player_id) =
        some mid ∧
      get_team_id (process_game_event ev st).1.registry (some pl.player_id) =
        some t.team_id) ∧
    (∀ t ∈ p.teams, t.players ≠ [] →
      get_match_id_for_team (process_game_event ev st).1.registry (some t.team_id) =
        some mid) := by
  have hdisp : process_game_event ev st = matchStartProcess ev p st := by
    unfold process_game_event
    rw [hty, hpl]
  rw [hdisp]
  unfold matchStartProcess
  rw [hmid]
  dsimp only
  set st2 : AppState := AppState.mk
    (matchStartWriteTeams mid p.teams (matchStartWriteMatch mid p st.store))
    st.registry with hst2
  refine ⟨?_, ?_, ?_, ?_, ?_⟩
  · obtain ⟨hm1, -⟩ := rtl_frames mid p.teams st2
    rw [hm1]
    have hm2 : st2.store.matchHashes =
        (matchStartWriteMatch mid p st.store).matchHashes :=
      (writeTeams_frames mid p.teams (matchStartWriteMatch mid p st.store)).1
    rw [hm2]
    show ∃ mh, alookup (aset mid _ st.store.matchHashes) mid = some mh ∧ _
    rw [alookup_aset_self]
    refine ⟨_, rfl, rfl, ?_, rfl, rfl, rfl, rfl⟩
    rw [hfresh]
    rfl
  · intro t ht
    obtain ⟨-, ht1⟩ := rtl_frames mid p.teams st2
    rw [ht1]
    exact writeTeams_written mid p.teams _ t ht
  · intro t ht pl hpl
    obtain ⟨-, old, hold⟩ := rtl_main mid p.teams st2 hnd t ht pl hpl
    exact ⟨_, hold, rfl, rfl, rfl, rfl, rfl, rfl, rfl, rfl⟩
  · intro t ht pl hpl
    obtain ⟨hreg, -⟩ := rtl_main mid p.teams st2 hnd t ht pl hpl
    constructor
    · show (alookup (registerTeamsLoop mid p.teams st2).registry._matches
        pl.player_id).map (·.1) = some mid
      rw [hreg]
      rfl
    · show (alookup (registerTeamsLoop mid p.teams st2).registry._matches
        pl.player_id).map (·.2) = some t.team_id
      rw [hreg]
      rfl
  · intro t ht hne
    exact rtl_teams_written mid p.teams st2 t ht hne

/-- Counterexample to claim C6 as frozen: a team with no players never gets
its (teamID, match) registration (registration happens per player), and a
MATCH_START without a `matchID` raises `DataError` in the Redis client
(the metadata mapping contains a `None` value) writing nothing at all. -/
theorem C6_counterexample :
    get_match_id_for_team (process_game_event sampleEmptyTeamStart initState).1.registry
      (some "tE") = none ∧
    process_game_event sampleStartNoMid initState = (initState, some PyErr.dataError) :=
  ⟨by decide, by decide⟩

theorem C6_match_start_amended_witness :
    ∃ mh, alookup (process_game_event sampleMatchStart initState).1.store.matchHashes
      "m1" = some mh ∧
      mh.first_blood = some FirstBlood.sentinel ∧
      mh.winning_team_id = none ∧
      mh.teams = [("t1", ["p1", "p2"])] ∧
      mh.match_id = "m1" ∧ mh.start_time = "2024-01-01T12:00:00+00:00" ∧ mh.title = "Final" :=
  (C6_match_start_amended sampleMatchStart ⟨sampleFixture, [sampleTeam]⟩ initState "m1"
    rfl rfl rfl (by decide) (by decide)).1

/-! ## Optional-field handling (claim C4) -/

/-- Claim C4 (amended): optional fields that the code guards are skipped
without error — a MINION_KILL without `goldGranted` is a full no-op, and a
PLAYER_KILL with a registered killer and all other optional fields absent
performs exactly the `human_kills` increment; but the two unguarded paths
raise: a MINION_KILL with `goldGranted` present and the event timestamp
absent raises `TypeError` in `fromisoformat(None)` after incrementing gold
and minion_kills, and a PLAYER_KILL with a non-empty `assistants` list and
`assistGold` absent raises `DataError` in the Redis client. -/
theorem C4_optional_fields_amended (ev evq : GameEvent) (p : PlayerKillPayload)
    (q : MinionKillPayload) (st : AppState) (k aId mid : String) (g : Int)
    (rest : List String) :
    (evq.type_ = EventType.MINION_KILL → evq.payload = Payload.minionKill q →
      q.gold_granted = none → process_game_event evq st = (st, none)) ∧
    (ev.type_ = EventType.PLAYER_KILL → ev.payload = Payload.playerKill p →
      p.killer_id = some k → get_match_id_for_player st.registry (some k) = some mid →
      p.gold_granted = none → p.assistants = none → p.victim_id = none →
      ev.timestamp = none →
      process_game_event ev st =
        (AppState.mk
          (hincrPlayer st.store (mid, k) fun h => { h with human_kills := h.human_kills + 1 })
          st.registry, none)) ∧
    (evq.type_ = EventType.MINION_KILL → evq.payload = Payload.minionKill q →
      q.gold_granted = some g →
      get_match_id_for_player st.registry (some q.player_id) = some mid →
      evq.timestamp = none →
      process_game_event evq st =
        (AppState.mk
          (hincrPlayer (hincrPlayer st.store (mid, q.player_id)
            fun h => { h with gold := h.gold + g }) (mid, q.player_id)
            fun h => { h with minion_kills := h.minion_kills + 1 })
          st.registry, some PyErr.typeError)) ∧
    (ev.type_ = EventType.PLAYER_KILL → ev.payload = Payload.playerKill p →
      p.killer_id = none → p.assistants = some (aId :: rest) →
      get_match_id_for_player st.registry (some aId) = some mid →
      p.assist_gold = none →
      (process_game_event ev st).2 = some PyErr.dataError) := by
  refine ⟨?_, ?_, ?_, ?_⟩
  · intro hty hpl hg
    have hdisp : process_game_event evq st = minionKillProcess evq q st := by
      unfold process_game_event
      rw [hty, hpl]
    rw [hdisp]
    unfold minionKillProcess
    rw [hg]
  · intro hty hpl hk hm hgg hpa hv hts
    have hdisp : process_game_event ev st = playerKillProcess ev p st := by
      unfold process_game_event
      rw [hty, hpl]
    have hks : playerKillKillerStep st.registry ev p st.store =
        (hincrPlayer st.store (mid, k) fun h => { h with human_kills := h.human_kills + 1 },
          none) := by
      unfold playerKillKillerStep
      rw [hk]
      dsimp only
      rw [hm]
      dsimp only
      rw [hgg, hts]
    have hvs : playerKillVictimStep st.registry ev p
        (hincrPlayer st.store (mid, k) fun h => { h with human_kills := h.human_kills + 1 }) =
        (hincrPlayer st.store (mid, k) fun h => { h with human_kills := h.human_kills + 1 },
          none) := by
      unfold playerKillVictimStep
      rw [hv]
    have hfb : playerKillFirstBlood st.registry ev p
        (hincrPlayer st.store (mid, k) fun h => { h with human_kills := h.human_kills + 1 }) =
        (hincrPlayer st.store (mid, k) fun h => { h with human_kills := h.human_kills + 1 },
          none) := by
      unfold playerKillFirstBlood
      rw [hts]
    rw [hdisp]
    unfold playerKillProcess
    rw [hks]
    dsimp only
    rw [hpa]
    dsimp only
    rw [hvs]
    dsimp only
    rw [hfb]
  · intro hty hpl hg hm hts
    have hdisp : process_game_event evq st = minionKillProcess evq q st := by
      unfold process_game_event
      rw [hty, hpl]
    rw [hdisp]
    unfold minionKillProcess
    rw [hg]
    dsimp only
    rw [hm]
    dsimp only
    rw [hts]
  · intro hty hpl hk hpa hm hag
    have hdisp : process_game_event ev st = playerKillProcess ev p st := by
      unfold process_game_event
      rw [hty, hpl]
    have hks : playerKillKillerStep st.registry ev p st.store = (st.store, none) := by
      unfold playerKillKillerStep
      rw [hk]
    have hal : playerKillAssistLoop st.registry (aId :: rest) p.assist_gold st.store =
        (st.store, some PyErr.dataError) := by
      unfold playerKillAssistLoop
      rw [hm]
      dsimp only
      rw [hag]
    rw [hdisp]
    unfold playerKillProcess
    rw [hks]
    dsimp only
    rw [hpa]
    dsimp only
    rw [hal]

theorem C4_optional_fields_amended_witness :
    process_game_event samplePkBare startedState =
      (AppState.mk
        (hincrPlayer startedState.store ("m1", "p1")
          fun h => { h with human_kills := h.human_kills + 1 })
        startedState.registry, none) :=
  (C4_optional_fields_amended samplePkBare sampleMinionNoTs
    ⟨some "p1", none, none, none, none⟩ ⟨"p1", none⟩ startedState "p1" "p2" "m1" 20 []).2.1
    rfl rfl rfl (by decide) rfl rfl rfl rfl

/-- Counterexample to claim C4 as frozen: a MINION_KILL with `goldGranted`
present but the timestamp absent raises `TypeError` (with the gold increment
already applied, 100 to 120), and a PLAYER_KILL with assistants present but
`assistGold` absent raises `DataError` — neither completes without error. -/
theorem C4_counterexample :
    (process_game_event sampleMinionNoTs startedState).2 = some PyErr.typeError ∧
    (alookup (process_game_event sampleMinionNoTs startedState).1.store.playerHashes
      ("m1", "p1")).map (·.gold) = some 120 ∧
    (process_game_event samplePkAssistNoGold startedState).2 = some PyErr.dataError := by
  refine ⟨?_, ?_, ?_⟩ <;> decide

/-! ## First blood (claim C3) -/

theorem fbOf_congr {s' s : Store} (h : s'.matchHashes = s.matchHashes) (mid : String) :
    fbOf s' mid = fbOf s mid := by
  unfold fbOf
  rw [h]

theorem fbOf_setFirstBlood_self (s : Store) (mid : String) (ts : Int) :
    fbOf (setFirstBlood s mid ts) mid = some (FirstBlood.value ts) := by
  unfold fbOf setFirstBlood
  dsimp only
  rw [alookup_aupd_self]
  cases alookup s.matchHashes mid <;> rfl

theorem fbOf_setFirstBlood_ne (s : Store) (k q : String) (ts : Int) (h : q ≠ k) :
    fbOf (setFirstBlood s k ts) q = fbOf s q := by
  unfold fbOf setFirstBlood
  dsimp only
  rw [alookup_aupd_ne _ _ _ _ _ h]

theorem fbOf_matchEndWriteWinning (k w : String) (s : Store) (mid : String) :
    fbOf (matchEndWriteWinning k w s) mid = fbOf s mid := by
  unfold fbOf matchEndWriteWinning
  dsimp only
  by_cases h : mid = k
  · subst h
    rw [alookup_aupd_self]
    cases alookup s.matchHashes mid <;> rfl
  · rw [alookup_aupd_ne _ _ _ _ _ h]

theorem matchEnd_fbOf (ev : GameEvent) (p : MatchEndPayload) (st : AppState) (mid : String) :
    fbOf (matchEndProcess ev p st).1.store mid = fbOf st.store mid := by
  unfold matchEndProcess
  dsimp only
  rcases hs2 : killStreaksLoop st.registry
      (players_for_match st.registry (matchKeyOf ev.match_id))
      (matchEndWriteWinning (matchKeyOf ev.match_id) p.winning_team_id st.store) with ⟨s2, e2⟩
  have h2 := killStreaksLoop_effects st.registry
    (players_for_match st.registry (matchKeyOf ev.match_id))
    (matchEndWriteWinning (matchKeyOf ev.match_id) p.winning_team_id st.store)
  rw [hs2] at h2
  have h2m : s2.matchHashes =
      (matchEndWriteWinning (matchKeyOf ev.match_id) p.winning_team_id st.store).matchHashes :=
    h2.1
  cases e2 with
  | some e =>
    exact (fbOf_congr h2m mid).trans (fbOf_matchEndWriteWinning _ _ _ _)
  | none =>
    dsimp only
    rcases hs3 : killingSpreesLoop st.registry
        (players_for_match st.registry (matchKeyOf ev.match_id)) s2 with ⟨s3, e3⟩
    have h3 := killingSpreesLoop_effects st.registry
      (players_for_match st.registry (matchKeyOf ev.match_id)) s2
    rw [hs3] at h3
    have h3m : s3.matchHashes = s2.matchHashes := h3.1
    exact ((fbOf_congr h3m mid).trans (fbOf_congr h2m mid)).trans
      (fbOf_matchEndWriteWinning _ _ _ _)

theorem registry_frame (ev : GameEvent) (st : AppState)
    (h : ev.type_ ≠ EventType.MATCH_START) :
    (process_game_event ev st).1.registry = st.registry := by
  unfold process_game_event
  cases ht : ev.type_ with
  | MATCH_START => exact absurd ht h
  | MINION_KILL =>
    cases hp : ev.payload <;> try rfl
    exact (minionKill_effects ev _ st).1
  | PLAYER_KILL =>
    cases hp : ev.payload <;> try rfl
    exact (playerKill_effects ev _ st).1
  | DRAGON_KILL =>
    cases hp : ev.payload <;> try rfl
    exact (dragonKill_effects ev _ st).1
  | TURRET_DESTROY =>
    cases hp : ev.payload <;> try rfl
    exact (turretDestroy_effects ev _ st).1
  | MATCH_END =>
    cases hp : ev.payload <;> try rfl
    exact (matchEnd_effects ev _ st).1
  | UNKNOWN => rfl

theorem killerStep_ok (reg : Registry) (ev : GameEvent) (p : PlayerKillPayload) (s : Store)
    (hk : ∀ k, p.killer_id = some k → get_match_id_for_player reg (some k) ≠ none) :
    (playerKillKillerStep reg ev p s).2 = none := by
  unfold playerKillKillerStep
  cases hki : p.killer_id with
  | none => rfl
  | some k =>
    dsimp only
    cases hm : get_match_id_for_player reg (some k) with
    | none => exact absurd hm (hk k hki)
    | some mid => rfl

theorem assistLoop_ok (reg : Registry) (g : Int) :
    ∀ (l : List String) (s : Store),
      (∀ a ∈ l, get_match_id_for_player reg (some a) ≠ none) →
      (playerKillAssistLoop reg l (some g) s).2 = none
  | [], _, _ => rfl
  | aId :: rest, s, h => by
    unfold playerKillAssistLoop
    cases hm : get_match_id_for_player reg (some aId) with
    | none => exact absurd hm (h aId (List.mem_cons_self _ _))
    | some mid =>
      dsimp only
      exact assistLoop_ok reg g rest _ (fun a ha => h a (List.mem_cons_of_mem _ ha))

theorem victimStep_ok (reg : Registry) (ev : GameEvent) (p : PlayerKillPayload) (s : Store)
    (hv : ∀ v, p.victim_id = some v → ev.timestamp ≠ none →
      get_match_id_for_player reg (some v) ≠ none) :
    (playerKillVictimStep reg ev p s).2 = none := by
  unfold playerKillVictimStep
  cases hvi : p.victim_id with
  | none => cases ev.timestamp <;> rfl
  | some v =>
    cases hts : ev.timestamp with
    | none => rfl
    | some ts =>
      dsimp only
      cases hm : get_match_id_for_player reg (some v) with
      | none =>
        exact absurd hm (hv v hvi (by rw [hts]; exact fun hh => Option.noConfusion hh))
      | some mid => rfl

theorem firstBlood_fb_step (reg : Registry) (ev : GameEvent) (p : PlayerKillPayload)
    (s : Store) (mid : String) (f : FirstBlood) (ts : Int)
    (hts : ev.timestamp = some ts)
    (hnkv : ¬(p.killer_id = none ∧ p.victim_id = none))
    (hmid : get_match_id_for_player reg (pyOr p.killer_id p.victim_id) = some mid)
    (hfb : fbOf s mid = some f) :
    fbOf (playerKillFirstBlood reg ev p s).1 mid = some (fbStep f ts) ∧
    (playerKillFirstBlood reg ev p s).2 = none := by
  have hmk : matchKeyOf (get_match_id_for_player reg (pyOr p.killer_id p.victim_id)) = mid := by
    rw [hmid]
    rfl
  unfold playerKillFirstBlood
  rw [hts]
  dsimp only
  rw [if_neg hnkv, hmk]
  have hread : (alookup s.matchHashes mid).bind (fun mh => mh.first_blood) = some f := hfb
  rw [hread]
  cases f with
  | sentinel => exact ⟨fbOf_setFirstBlood_self s mid ts, rfl⟩
  | value w =>
    dsimp only [fbStep]
    by_cases hlt : ts < w
    · rw [if_pos hlt, if_pos hlt]
      exact ⟨fbOf_setFirstBlood_self s mid ts, rfl⟩
    · rw [if_neg hlt, if_neg hlt]
      exact ⟨hfb, rfl⟩

theorem firstBlood_fb_monotone (reg : Registry) (ev : GameEvent) (p : PlayerKillPayload)
    (s : Store) (mid : String) (v : Int)
    (hfb : fbOf s mid = some (FirstBlood.value v)) :
    ∃ v2, fbOf (playerKillFirstBlood reg ev p s).1 mid = some (FirstBlood.value v2) ∧
      (v2 = v ∨ v2 < v) := by
  unfold playerKillFirstBlood
  cases hts : ev.timestamp with
  | none => exact ⟨v, hfb, Or.inl rfl⟩
  | some ts =>
    dsimp only
    by_cases hnkv : p.killer_id = none ∧ p.victim_id = none
    · rw [if_pos hnkv]
      exact ⟨v, hfb, Or.inl rfl⟩
    · rw [if_neg hnkv]
      by_cases hm : matchKeyOf (get_match_id_for_player reg (pyOr p.killer_id p.victim_id)) = mid
      · rw [hm]
        have hread : (alookup s.matchHashes mid).bind (fun mh => mh.first_blood) =
            some (FirstBlood.value v) := hfb
        rw [hread]
        dsimp only
        by_cases hlt : ts < v
        · rw [if_pos hlt]
          exact ⟨ts, fbOf_setFirstBlood_self s mid ts, Or.inr hlt⟩
        · rw [if_neg hlt]
          exact ⟨v, hfb, Or.inl rfl⟩
      · cases hr : (alookup s.matchHashes
            (matchKeyOf (get_match_id_for_player reg (pyOr p.killer_id p.victim_id)))).bind
            (fun mh => mh.first_blood) with
        | none => exact ⟨v, hfb, Or.inl rfl⟩
        | some fb =>
          cases fb with
          | sentinel =>
            dsimp only
            refine ⟨v, ?_, Or.inl rfl⟩
            rw [fbOf_setFirstBlood_ne _ _ _ _ (Ne.symm hm)]
            exact hfb
          | value w =>
            dsimp only
            by_cases hlt : ts < w
            · rw [if_pos hlt]
              refine ⟨v, ?_, Or.inl rfl⟩
              rw [fbOf_setFirstBlood_ne _ _ _ _ (Ne.symm hm)]
              exact hfb
            · rw [if_neg hlt]
              exact ⟨v, hfb, Or.inl rfl⟩

theorem playerKill_fb_monotone (ev : GameEvent) (p : PlayerKillPayload) (st : AppState)
    (mid : String) (v : Int)
    (hfb : fbOf st.store mid = some (FirstBlood.value v)) :
    ∃ v2, fbOf (playerKillProcess ev p st).1.store mid = some (FirstBlood.value v2) ∧
      (v2 = v ∨ v2 < v) := by
  unfold playerKillProcess
  rcases hk : playerKillKillerStep st.registry ev p st.store with ⟨s1, e1⟩
  have hks := killerStep_effects st.registry ev p st.store
  rw [hk] at hks
  have hk1 : s1.matchHashes = st.store.matchHashes := hks.1
  have hfb1 : fbOf s1 mid = some (FirstBlood.value v) := (fbOf_congr hk1 mid).trans hfb
  cases e1 with
  | some e => exact ⟨v, hfb1, Or.inl rfl⟩
  | none =>
    dsimp only
    cases hpa : p.assistants with
    | none =>
      dsimp only
      rcases hv : playerKillVictimStep st.registry ev p s1 with ⟨s3, e3⟩
      have hvs := victimStep_effects st.registry ev p s1
      rw [hv] at hvs
      have hv3 : s3.matchHashes = s1.matchHashes := hvs.2.2
      have hfb3 : fbOf s3 mid = some (FirstBlood.value v) := (fbOf_congr hv3 mid).trans hfb1
      cases e3 with
      | some e => exact ⟨v, hfb3, Or.inl rfl⟩
      | none =>
        dsimp only
        rcases hf : playerKillFirstBlood st.registry ev p s3 with ⟨s4, e4⟩
        dsimp only
        obtain ⟨v2, h1, h2⟩ := firstBlood_fb_monotone st.registry ev p s3 mid v hfb3
        rw [hf] at h1
        exact ⟨v2, h1, h2⟩
    | some l =>
      dsimp only
      rcases ha : playerKillAssistLoop st.registry l p.assist_gold s1 with ⟨s2, e2⟩
      have has := assistLoop_effects st.registry p.assist_gold l s1
      rw [ha] at has
      have ha2 : s2.matchHashes = s1.matchHashes := has.1
      have hfb2 : fbOf s2 mid = some (FirstBlood.value v) := (fbOf_congr ha2 mid).trans hfb1
      cases e2 with
      | some e => exact ⟨v, hfb2, Or.inl rfl⟩
      | none =>
        dsimp only
        rcases hv : playerKillVictimStep st.registry ev p s2 with ⟨s3, e3⟩
        have hvs := victimStep_effects st.registry ev p s2
        rw [hv] at hvs
        have hv3 : s3.matchHashes = s2.matchHashes := hvs.2.2
        have hfb3 : fbOf s3 mid = some (FirstBlood.value v) := (fbOf_congr hv3 mid).trans hfb2
        cases e3 with
        | some e => exact ⟨v, hfb3, Or.inl rfl⟩
        | none =>
          dsimp only
          rcases hf : playerKillFirstBlood st.registry ev p s3 with ⟨s4, e4⟩
          dsimp only
          obtain ⟨v2, h1, h2⟩ := firstBlood_fb_monotone st.registry ev p s3 mid v hfb3
          rw [hf] at h1
          exact ⟨v2, h1, h2⟩

theorem playerKill_fb (ev : GameEvent) (p : PlayerKillPayload) (st : AppState)
    (mid : String) (f : FirstBlood)
    (hsafe : pkSafe st.registry mid p ev.timestamp)
    (hfb : fbOf st.store mid = some f) :
    fbOf (playerKillProcess ev p st).1.store mid =
      some (match ev.timestamp with
            | none => f
            | some ts =>
              if p.killer_id = none ∧ p.victim_id = none then f else fbStep f ts) := by
  obtain ⟨h1, h2, h3, h4⟩ := hsafe
  unfold playerKillProcess
  rcases hk : playerKillKillerStep st.registry ev p st.store with ⟨s1, e1⟩
  have he1 : e1 = none := by
    have := killerStep_ok st.registry ev p st.store h1
    rw [hk] at this
    exact this
  subst he1
  dsimp only
  have hks := killerStep_effects st.registry ev p st.store
  rw [hk] at hks
  have hk1 : s1.matchHashes = st.store.matchHashes := hks.1
  have hfb1 : fbOf s1 mid = some f := (fbOf_congr hk1 mid).trans hfb
  cases hpa : p.assistants with
  | none =>
    dsimp only
    rcases hv : playerKillVictimStep st.registry ev p s1 with ⟨s3, e3⟩
    have he3 : e3 = none := by
      have := victimStep_ok st.registry ev p s1 h3
      rw [hv] at this
      exact this
    subst he3
    dsimp only
    have hvs := victimStep_effects st.registry ev p s1
    rw [hv] at hvs
    have hv3 : s3.matchHashes = s1.matchHashes := hvs.2.2
    have hfb3 : fbOf s3 mid = some f := (fbOf_congr hv3 mid).trans hfb1
    cases hts : ev.timestamp with
    | none =>
      have hfbp : playerKillFirstBlood st.registry ev p s3 = (s3, none) := by
        unfold playerKillFirstBlood
        rw [hts]
      rw [hfbp]
      exact hfb3
    | some ts =>
      by_cases hnkv : p.killer_id = none ∧ p.victim_id = none
      · have hfbp : playerKillFirstBlood st.registry ev p s3 = (s3, none) := by
          unfold playerKillFirstBlood
          rw [hts]
          dsimp only
          rw [if_pos hnkv]
        rw [hfbp]
        dsimp only
        rw [if_pos hnkv]
        exact hfb3
      · obtain ⟨hfb4, he4⟩ := firstBlood_fb_step st.registry ev p s3 mid f ts hts hnkv
          (h4 (by rw [hts]; exact fun hh => Option.noConfusion hh) hnkv) hfb3
        rcases hf : playerKillFirstBlood st.registry ev p s3 with ⟨s4, e4⟩
        rw [hf] at hfb4
        dsimp only
        rw [if_neg hnkv]
        exact hfb4
  | some l =>
    dsimp only
    obtain ⟨hag, hreg⟩ := h2 l hpa
    cases hagv : p.assist_gold with
    | none => exact absurd hagv hag
    | some g =>
      rcases ha : playerKillAssistLoop st.registry l (some g) s1 with ⟨s2, e2⟩
      have he2 : e2 = none := by
        have := assistLoop_ok st.registry g l s1 hreg
        rw [ha] at this
        exact this
      subst he2
      dsimp only
      have has := assistLoop_effects st.registry (some g) l s1
      rw [ha] at has
      have ha2 : s2.matchHashes = s1.matchHashes := has.1
      have hfb2 : fbOf s2 mid = some f := (fbOf_congr ha2 mid).trans hfb1
      rcases hv : playerKillVictimStep st.registry ev p s2 with ⟨s3, e3⟩
      have he3 : e3 = none := by
        have := victimStep_ok st.registry ev p s2 h3
        rw [hv] at this
        exact this
      subst he3
      dsimp only
      have hvs := victimStep_effects st.registry ev p s2
      rw [hv] at hvs
      have hv3 : s3.matchHashes = s2.matchHashes := hvs.2.2
      have hfb3 : fbOf s3 mid = some f := (fbOf_congr hv3 mid).trans hfb2
      cases hts : ev.timestamp with
      | none =>
        have hfbp : playerKillFirstBlood st.registry ev p s3 = (s3, none) := by
          unfold playerKillFirstBlood
          rw [hts]
        rw [hfbp]
        exact hfb3
      | some ts =>
        by_cases hnkv : p.killer_id = none ∧ p.victim_id = none
        · have hfbp : playerKillFirstBlood st.registry ev p s3 = (s3, none) := by
            unfold playerKillFirstBlood
            rw [hts]
            dsimp only
            rw [if_pos hnkv]
          rw [hfbp]
          dsimp only
          rw [if_pos hnkv]
          exact hfb3
        · obtain ⟨hfb4, he4⟩ := firstBlood_fb_step st.registry ev p s3 mid f ts hts hnkv
            (h4 (by rw [hts]; exact fun hh => Option.noConfusion hh) hnkv) hfb3
          rcases hf : playerKillFirstBlood st.registry ev p s3 with ⟨s4, e4⟩
          rw [hf] at hfb4
          dsimp only
          rw [if_neg hnkv]
          exact hfb4

theorem step_fb (ev : GameEvent) (st : AppState) (mid : String) (f : FirstBlood)
    (hsafe : evSafe st.registry mid ev)
    (hfb : fbOf st.store mid = some f) :
    fbOf (process_game_event ev st).1.store mid = some (fbAfter f (qualTs ev)) := by
  obtain ⟨hnms, hpk⟩ := hsafe
  unfold process_game_event
  cases ht : ev.type_ with
  | MATCH_START => exact absurd ht hnms
  | MINION_KILL =>
    have hq : qualTs ev = none := by
      unfold qualTs
      rw [ht]
    rw [hq]
    cases hp : ev.payload <;> try exact hfb
    exact (fbOf_congr (minionKill_effects ev _ st).2.1 mid).trans hfb
  | PLAYER_KILL =>
    cases hp : ev.payload <;>
      try (have hq : qualTs ev = none := by unfold qualTs; rw [ht, hp]
           rw [hq]
           exact hfb)
    case playerKill p =>
    have hmain := playerKill_fb ev p st mid f (hpk p ht hp) hfb
    rw [hmain]
    cases hts : ev.timestamp with
    | none =>
      have hq : qualTs ev = none := by
        unfold qualTs
        rw [ht, hp, hts]
      rw [hq]
      dsimp only
      rfl
    | some ts =>
      have hq : qualTs ev =
          (if p.killer_id = none ∧ p.victim_id = none then none else some ts) := by
        unfold qualTs
        rw [ht, hp, hts]
      rw [hq]
      dsimp only
      by_cases hnkv : p.killer_id = none ∧ p.victim_id = none
      · rw [if_pos hnkv, if_pos hnkv]
        rfl
      · rw [if_neg hnkv, if_neg hnkv]
        rfl
  | DRAGON_KILL =>
    have hq : qualTs ev = none := by
      unfold qualTs
      rw [ht]
    rw [hq]
    cases hp : ev.payload <;> try exact hfb
    exact (fbOf_congr (dragonKill_effects ev _ st).2.1 mid).trans hfb
  | TURRET_DESTROY =>
    have hq : qualTs ev = none := by
      unfold qualTs
      rw [ht]
    rw [hq]
    cases hp : ev.payload <;> try exact hfb
    exact (fbOf_congr (turretDestroy_effects ev _ st).2.1 mid).trans hfb
  | MATCH_END =>
    have hq : qualTs ev = none := by
      unfold qualTs
      rw [ht]
    rw [hq]
    cases hp : ev.payload <;> try exact hfb
    exact (matchEnd_fbOf ev _ st mid).trans hfb
  | UNKNOWN =>
    have hq : qualTs ev = none := by
      unfold qualTs
      rw [ht]
    rw [hq]
    exact hfb

theorem seq_fb (mid : String) : ∀ (evs : List GameEvent) (st : AppState) (f : FirstBlood),
    (∀ e ∈ evs, evSafe st.registry mid e) →
    fbOf st.store mid = some f →
    fbOf (processSeq evs st).store mid =
      some (List.foldl fbStep f (seqQualTs evs)) ∧
    (processSeq evs st).registry = st.registry
  | [], _, _, _, hfb => ⟨hfb, rfl⟩
  | e :: rest, st, f, hsafe, hfb => by
    have hstep := step_fb e st mid f (hsafe e (List.mem_cons_self e rest)) hfb
    have hreg : (process_game_event e st).1.registry = st.registry :=
      registry_frame e st (hsafe e (List.mem_cons_self e rest)).1
    have hsafe' : ∀ x ∈ rest, evSafe (process_game_event e st).1.registry mid x := by
      rw [hreg]
      exact fun x hx => hsafe x (List.mem_cons_of_mem e hx)
    obtain ⟨ih1, ih2⟩ :=
      seq_fb mid rest (process_game_event e st).1 (fbAfter f (qualTs e)) hsafe' hstep
    have hps : processSeq (e :: rest) st = processSeq rest (process_game_event e st).1 := rfl
    rw [hps]
    refine ⟨?_, ih2.trans hreg⟩
    rw [ih1]
    unfold seqQualTs
    rw [List.filterMap_cons]
    cases hq : qualTs e with
    | none => rfl
    | some t => rfl

theorem foldl_fbStep_value (l : List Int) : ∀ (v : Int),
    ∃ m, List.foldl fbStep (FirstBlood.value v) l = FirstBlood.value m ∧
      (m = v ∨ m ∈ l) ∧ m ≤ v ∧ ∀ u ∈ l, m ≤ u := by
  induction l with
  | nil =>
    exact fun v => ⟨v, rfl, Or.inl rfl, le_refl v, fun u hu => absurd hu (List.not_mem_nil u)⟩
  | cons t rest ih =>
    intro v
    obtain ⟨m, h1, h2, h3, h4⟩ := ih (if t < v then t else v)
    have hstep : List.foldl fbStep (FirstBlood.value v) (t :: rest) =
        List.foldl fbStep (FirstBlood.value (if t < v then t else v)) rest := by
      show List.foldl fbStep (fbStep (FirstBlood.value v) t) rest = _
      unfold fbStep
      dsimp only
      by_cases h : t < v
      · rw [if_pos h, if_pos h]
      · rw [if_neg h, if_neg h]
    refine ⟨m, hstep.trans h1, ?_, ?_, ?_⟩
    · rcases h2 with h2 | h2
      · by_cases h : t < v
        · rw [if_pos h] at h2
          rw [h2]
          exact Or.inr (List.mem_cons_self t rest)
        · rw [if_neg h] at h2
          exact Or.inl h2
      · exact Or.inr (List.mem_cons_of_mem t h2)
    · by_cases h : t < v
      · rw [if_pos h] at h3
        omega
      · rw [if_neg h] at h3
        exact h3
    · intro u hu
      rcases List.mem_cons.mp hu with hu | hu
      · rw [hu]
        by_cases h : t < v
        · rw [if_pos h] at h3
          exact h3
        · rw [if_neg h] at h3
          omega
      · exact h4 u hu

theorem foldl_fbStep_sentinel (l : List Int) (hne : l ≠ []) :
    ∃ m, List.foldl fbStep FirstBlood.sentinel l = FirstBlood.value m ∧
      m ∈ l ∧ ∀ u ∈ l, m ≤ u := by
  cases l with
  | nil => exact absurd rfl hne
  | cons t rest =>
    obtain ⟨m, h1, h2, h3, h4⟩ := foldl_fbStep_value rest t
    refine ⟨m, ?_, ?_, ?_⟩
    · show List.foldl fbStep (fbStep FirstBlood.sentinel t) rest = FirstBlood.value m
      exact h1
    · rcases h2 with h2 | h2
      · rw [h2]
        exact List.mem_cons_self t rest
      · exact List.mem_cons_of_mem t h2
    · intro u hu
      rcases List.mem_cons.mp hu with hu | hu
      · subst hu
        exact h3
      · exact h4 u hu

/-- Claim C3 (amended): over any sequence of safe mid-game events whose
`PLAYER_KILL`s are registered to the match — with the amendment that only
`PLAYER_KILL` events carrying a timestamp AND at least one of killer and
victim qualify (the processor returns before the first-blood update when
both are absent) — the match's `first_blood`, starting from the `"-1"`
sentinel written at match start, ends at the minimum qualifying timestamp;
and once `first_blood` holds a non-sentinel value, processing any
`PLAYER_KILL` either leaves it unchanged or replaces it with a strictly
smaller timestamp. -/
theorem C3_first_blood_amended (mid : String) (evs : List GameEvent) (st st2 : AppState)
    (ev : GameEvent) (v : Int) :
    ((∀ e ∈ evs, evSafe st.registry mid e) →
     fbOf st.store mid = some FirstBlood.sentinel →
     seqQualTs evs ≠ [] →
     ∃ m, fbOf (processSeq evs st).store mid = some (FirstBlood.value m) ∧
       m ∈ seqQualTs evs ∧ ∀ u ∈ seqQualTs evs, m ≤ u) ∧
    (ev.type_ = EventType.PLAYER_KILL →
     fbOf st2.store mid = some (FirstBlood.value v) →
     ∃ v2, fbOf (process_game_event ev st2).1.store mid = some (FirstBlood.value v2) ∧
       (v2 = v ∨ v2 < v)) := by
  constructor
  · intro hsafe hfb hne
    obtain ⟨h1, -⟩ := seq_fb mid evs st FirstBlood.sentinel hsafe hfb
    obtain ⟨m, hm1, hm2, hm3⟩ := foldl_fbStep_sentinel (seqQualTs evs) hne
    refine ⟨m, ?_, hm2, hm3⟩
    rw [h1, hm1]
  · intro hty hfb
    unfold process_game_event
    rw [hty]
    cases hp : ev.payload <;> try exact ⟨v, hfb, Or.inl rfl⟩
    exact playerKill_fb_monotone ev _ st2 mid v hfb

theorem C3_first_blood_amended_witness :
    ∃ m, fbOf (processSeq [samplePkKill5] startedState).store "m1" =
        some (FirstBlood.value m) ∧
      m ∈ seqQualTs [samplePkKill5] ∧ ∀ u ∈ seqQualTs [samplePkKill5], m ≤ u :=
  (C3_first_blood_amended "m1" [samplePkKill5] startedState startedState samplePkNobody3 0).1
    (by
      intro e he
      have he' : e = samplePkKill5 := by simpa using he
      subst he'
      refine ⟨by decide, ?_⟩
      intro q hty hpl
      have hq : PlayerKillPayload.mk (some "p1") (some "p2") (some 300) none none = q := by
        injection hpl
      subst hq
      refine ⟨?_, ?_, ?_, ?_⟩
      · intro k hk
        have hk' : k = "p1" := by
          injection hk with h
          exact h.symm
        subst hk'
        decide
      · intro l hl
        exact Option.noConfusion (show (none : Option (List String)) = some l from hl)
      · intro w hw _
        have hw' : w = "p2" := by
          injection hw with h
          exact h.symm
        subst hw'
        decide
      · intro _ _
        decide)
    (by decide)
    (by decide)

/-- Counterexample to claim C3 as frozen: the event `samplePkNobody3` is a
`PLAYER_KILL` carrying timestamp 3 but neither killer nor victim, so the
processor returns before its first-blood block; after the sequence the
match's `first_blood` is 5, not the minimum 3 over the `PLAYER_KILL` events
carrying a timestamp. -/
theorem C3_counterexample :
    samplePkNobody3.type_ = EventType.PLAYER_KILL ∧
    samplePkNobody3.timestamp = some 3 ∧
    fbOf (processSeq [sampleMatchStart, samplePkKill5, samplePkNobody3] initState).store
      "m1" = some (FirstBlood.value 5) ∧
    ¬(5 : Int) ≤ 3 := by
  refine ⟨?_, ?_, ?_, ?_⟩ <;> decide

end BayesStreaks
